import Mathlib

/-!
# CodeNamor/HTTP: retrying instrumented client and graceful-shutdown server

A shallow embedding of `apiclient/retry.go`, `apiclient/trace.go`,
`apiclient/client.go`, `server/http.go`, `builders.go` and `http.go`, followed
by theorems about the embedded code.

Conventions of the embedding

* A Go `error` is an `Option GoError`; `none` is the nil error.
* Code that mutates package-level or captured state is a function on an
  explicit state record (`World` for the client, `LSState` and `AtomicValue`
  for the server).
* Go `int` values are `Int`; loop counters that only count upwards from 1
  are `Nat`.
* Goroutines are tasks of a step function driven by a schedule of events.
-/

/-! ## Shared Go values -/

/-- Go error values. `sentinel` is a package-level error variable, compared by
identity (`http.ErrServerClosed`, `context.Canceled`); `errorf` is a value made
by `fmt.Errorf` or `errors.New`; `wrap` is the result of `errors.Wrapf`. -/
inductive GoError where
  | sentinel (name : String)
  | errorf (msg : String)
  | wrap (cause : GoError) (msg : String)
deriving DecidableEq, Repr

namespace GoError

/-- The `Error()` text. `errors.Wrapf(cause, msg)` prints as `msg: cause`. -/
def Error : GoError → String
  | sentinel name => name
  | errorf msg => msg
  | wrap cause msg => msg ++ ": " ++ cause.Error

/-- The chain that `errors.Unwrap` walks, the error itself first. -/
def chain : GoError → List GoError
  | sentinel name => [sentinel name]
  | errorf msg => [errorf msg]
  | wrap cause msg => wrap cause msg :: cause.chain

end GoError

/-- The loop of `errors.Is` on a non-nil error: compare, then unwrap. -/
def GoError.Is : GoError → GoError → Bool
  | GoError.sentinel name, target => GoError.sentinel name == target
  | GoError.errorf msg, target => GoError.errorf msg == target
  | GoError.wrap cause msg, target => GoError.wrap cause msg == target || cause.Is target

/-- The function `errors.Is(err, target)` for a non-nil target: some error of
the chain of `err` equals `target`; a nil `err` matches no non-nil target. -/
def errors.Is : Option GoError → GoError → Bool
  | none, _ => false
  | some e, target => e.Is target

/-- The value `http.ErrServerClosed`. -/
def http.ErrServerClosed : GoError := GoError.sentinel "http: Server closed"

/-- The value `context.Canceled`. -/
def context.Canceled : GoError := GoError.sentinel "context canceled"

/-- The value `context.DeadlineExceeded`. -/
def context.DeadlineExceeded : GoError := GoError.sentinel "context deadline exceeded"

/-- A `context.Context` as one call observes it: `err` is what `Err()` returns
(`Done()` is closed exactly when it is non-nil) and `deadline` what
`Deadline()` reports. `id` tells apart contexts that are different values. -/
structure Context where
  id : Nat
  err : Option GoError
  deadline : Option Nat
deriving DecidableEq, Repr

/-- The value `context.Background()`: never done, no deadline. -/
def context.Background : Context := { id := 0, err := none, deadline := none }

/-- Outcome of a Go call: it returns a value, panics, or never returns. -/
inductive Outcome (α : Type) where
  | returned (value : α)
  | panicked (reason : String)
  | blocked
deriving DecidableEq, Repr

/-- One record written by logrus: level and message. -/
structure LogRecord where
  level : String
  msg : String
deriving DecidableEq, Repr

/-- The table `http.StatusText`, for the codes this repository uses. -/
def http.StatusText : Nat → String
  | 200 => "OK"
  | 500 => "Internal Server Error"
  | 503 => "Service Unavailable"
  | _ => ""

/-! ## Package `server` -/

namespace server

/-- The signals `ListenAndServe` subscribes to with `signal.Notify`. -/
inductive Signal where
  | Interrupt
  | SIGTERM
deriving DecidableEq, Repr

/-- What an `http.ResponseWriter` (an `httptest.ResponseRecorder`) has
received: `status` is `none` until the header is written. -/
structure ResponseWriter where
  header : List (String × String)
  status : Option Nat
  body : String
deriving DecidableEq, Repr

/-- A fresh `httptest.NewRecorder()`. -/
def NewRecorder : ResponseWriter := { header := [], status := none, body := "" }

/-- The status code the client sees: 200 unless a header was written. -/
def ResponseWriter.Code (w : ResponseWriter) : Nat := w.status.getD 200

/-- The method `w.WriteHeader(code)`: only the first call counts. -/
def ResponseWriter.WriteHeader (w : ResponseWriter) (code : Nat) : ResponseWriter :=
  match w.status with
  | none => { w with status := some code }
  | some _ => w

/-- The method `w.Write(b)`: writes the 200 header when none was written yet. -/
def ResponseWriter.Write (w : ResponseWriter) (b : String) : ResponseWriter :=
  let w1 := w.WriteHeader 200
  { w1 with body := w1.body ++ b }

/-- The method `w.Header().Set(key, value)`. -/
def ResponseWriter.SetHeader (w : ResponseWriter) (key value : String) : ResponseWriter :=
  { w with header := (key, value) :: w.header.filter (fun kv => kv.1 != key) }

/-- The function `http.Error(w, error, code)`: plain-text headers, the status
code, then the text followed by a newline. -/
def httpError (w : ResponseWriter) (error : String) (code : Nat) : ResponseWriter :=
  let w1 := w.SetHeader "Content-Type" "text/plain; charset=utf-8"
  let w2 := w1.SetHeader "X-Content-Type-Options" "nosniff"
  let w3 := w2.WriteHeader code
  { w3 with body := w3.body ++ error ++ "\n" }

/-- An `atomic.Value` that is only ever given booleans: `none` until the first
`Store`. -/
structure AtomicValue where
  v : Option Bool
deriving DecidableEq, Repr

/-- The method `atomicValue.Store(value)`. -/
def AtomicValue.Store (_a : AtomicValue) (value : Bool) : AtomicValue := { v := some value }

/-- The method `atomicValue.Load()`. -/
def AtomicValue.Load (a : AtomicValue) : Option Bool := a.v

/-- The cell that `CreateAtomicHandler(initialValue)` allocates and stores the
initial value in; the two closures it returns, `handler` and `updateFn`, both
capture this cell. -/
def CreateAtomicHandler (initialValue : Bool) : AtomicValue :=
  (AtomicValue.mk none).Store initialValue

/-- The closure `handler` of `CreateAtomicHandler`, given the captured cell.
The type assertion `.(bool)` panics on an empty cell. -/
def handler (atomicValue : AtomicValue) (w : ResponseWriter) : Outcome ResponseWriter :=
  match atomicValue.Load with
  | none => Outcome.panicked "interface conversion: interface is nil, not bool"
  | some b =>
      if !b then
        Outcome.returned (httpError w (http.StatusText 503) 503)
      else
        Outcome.returned (w.Write "OK")

/-- The closure `updateFn` of `CreateAtomicHandler`, given the captured cell. -/
def updateFn (atomicValue : AtomicValue) (value : Bool) : AtomicValue :=
  atomicValue.Store value

/-- The function `isNormalShutdown`. -/
def isNormalShutdown (err : Option GoError) : Bool :=
  errors.Is err http.ErrServerClosed

/-- Where the signal-waiting goroutine of `ListenAndServe` stands. -/
inductive SignalTask where
  | waiting
  | inShutdown
  | done
deriving DecidableEq, Repr

/-- Where the listening goroutine of `ListenAndServe` stands: in
`srv.ListenAndServe()`, blocked on `signals <- nil`, or finished. -/
inductive ListenTask where
  | serving
  | sendingNil
  | done
deriving DecidableEq, Repr

/-- State of one `ListenAndServe` call. `signals` is the channel of capacity 1
(`none` empty; `some none` holds the nil signal), `shutdownCalls` lists the
contexts `srv.Shutdown` was called with, `log` the logrus records. -/
structure LSState where
  signals : Option (Option Signal)
  signalTask : SignalTask
  listenTask : ListenTask
  serverError : Option GoError
  shutdownCalls : List Context
  log : List LogRecord
deriving DecidableEq, Repr

/-- What can happen next. `notify` is the runtime forwarding a signal,
`recvSignal` the receive `<-signals`, `shutdownReturns` the return of
`srv.Shutdown`, `serveReturns` the return of `srv.ListenAndServe`, `sendNil`
the completion of `signals <- nil`. -/
inductive Event where
  | notify (sig : Signal)
  | recvSignal
  | shutdownReturns (err : Option GoError)
  | serveReturns (err : Option GoError)
  | sendNil
deriving DecidableEq, Repr

/-- State after `wgServer.Add(2)` and the two `go` statements. -/
def LSState.init : LSState :=
  { signals := none, signalTask := SignalTask.waiting, listenTask := ListenTask.serving,
    serverError := none, shutdownCalls := [], log := [] }

/-- The signal goroutine from `log.Info("graceful shutdown initiated...")` up
to the call `srv.Shutdown(context.Background())`. -/
def initiateShutdown (s : LSState) : LSState :=
  { s with
    log := s.log ++ [{ level := "info", msg := "graceful shutdown initiated..." }],
    shutdownCalls := s.shutdownCalls ++ [context.Background],
    signalTask := SignalTask.inShutdown }

/-- One step of `ListenAndServe`; `none` when the event cannot happen in `s`.
`signal.Notify` never blocks: a signal that finds the channel full is dropped. -/
def step (s : LSState) : Event → Option LSState
  | Event.notify sig =>
      match s.signals with
      | none => some { s with signals := some (some sig) }
      | some _ => some s
  | Event.recvSignal =>
      match s.signalTask, s.signals with
      | SignalTask.waiting, some killSignal =>
          let s1 := { s with signals := none }
          match killSignal with
          | some Signal.Interrupt => some (initiateShutdown s1)
          | some Signal.SIGTERM =>
              some (initiateShutdown { s1 with
                log := s1.log ++
                  [{ level := "info", msg := "SIGTERM received (Kubernetes shutdown?)" }] })
          | none => some { s1 with signalTask := SignalTask.done }
      | _, _ => none
  | Event.shutdownReturns err =>
      match s.signalTask with
      | SignalTask.inShutdown =>
          match err with
          | some e =>
              some { s with
                log := s.log ++
                  [{ level := "error", msg := "graceful shutdown errored: " ++ e.Error }],
                signalTask := SignalTask.done }
          | none =>
              some { s with
                log := s.log ++ [{ level := "info", msg := "graceful shutdown complete" }],
                signalTask := SignalTask.done }
      | _ => none
  | Event.serveReturns err =>
      match s.listenTask with
      | ListenTask.serving =>
          if !isNormalShutdown err then
            some { s with serverError := err, listenTask := ListenTask.sendingNil }
          else
            some { s with serverError := err, listenTask := ListenTask.done }
      | _ => none
  | Event.sendNil =>
      match s.listenTask, s.signals with
      | ListenTask.sendingNil, none =>
          some { s with signals := some none, listenTask := ListenTask.done }
      | _, _ => none

/-- Runs a schedule; `none` when one of its events cannot happen. -/
def run : LSState → List Event → Option LSState
  | s, [] => some s
  | s, ev :: evs =>
      match step s ev with
      | none => none
      | some s1 => run s1 evs

/-- The code after `wgServer.Wait()`: `none` while a goroutine has not called
`Done`, else the value `ListenAndServe` returns. -/
def returnValue (s : LSState) : Option (Option GoError) :=
  match s.signalTask, s.listenTask with
  | SignalTask.done, ListenTask.done =>
      if isNormalShutdown s.serverError then some none else some s.serverError
  | _, _ => none

/-- The function `ListenAndServe` under a schedule: `none` when the schedule is
impossible or leaves the call blocked in `wgServer.Wait()`. -/
def ListenAndServe (evs : List Event) : Option (Option GoError) :=
  match run LSState.init evs with
  | none => none
  | some s => returnValue s

/-- One operation on a gate made by `CreateAtomicHandler`, as the goroutines
that share the gate perform them: an invocation of the handler, whose only
access to the cell is one `Load`, or a call of `updateFn`, whose only access is
one `Store`. -/
inductive GateOp where
  | invoke
  | update (value : Bool)
deriving DecidableEq, Repr

/-- The answers that the handler invocations of an interleaving give, in the
order of their `Load`s, starting from the cell `atomicValue`. -/
def serve : AtomicValue → List GateOp → List (Outcome ResponseWriter)
  | _, [] => []
  | atomicValue, GateOp.invoke :: ops => handler atomicValue NewRecorder :: serve atomicValue ops
  | atomicValue, GateOp.update value :: ops => serve (updateFn atomicValue value) ops

/-- The two handler closures that `CreateAndHandleReadinessLiveness` registers. -/
inductive HealthHandler where
  | readyHandler
  | livenessHandler
deriving DecidableEq, Repr

/-- A route of a `mux.Router` of the third-party library `github.com/gorilla/mux`:
a literal path that begins with a slash, the methods of its method matcher
(`[]` when the route has none and so accepts every method) and its handler. -/
structure Route where
  path : String
  methods : List String
  handler : HealthHandler
deriving DecidableEq, Repr

/-- A `mux.Router`: its routes in the order of registration. -/
abbrev Router := List Route

/-- The library function `mux.NewRouter()`. -/
def NewRouter : Router := []

/-- The library method `router.HandleFunc(path, f)`: a new last route for the
path, with no method matcher. -/
def Router.HandleFunc (router : Router) (path : String) (f : HealthHandler) : Router :=
  router ++ [{ path := path, methods := [], handler := f }]

/-- The two cells that the closures of `CreateAndHandleReadinessLiveness`
capture. -/
structure Probes where
  ready : AtomicValue
  liveness : AtomicValue
deriving DecidableEq, Repr

/-- The function `CreateAndHandleReadinessLiveness`: the router with the two
routes added and the two cells, both made with the initial value false. -/
def CreateAndHandleReadinessLiveness (router : Router) (readyURLPath liveURLPath : String) :
    Router × Probes :=
  let readyCell := CreateAtomicHandler false
  let router1 := router.HandleFunc readyURLPath HealthHandler.readyHandler
  let livenessCell := CreateAtomicHandler false
  let router2 := router1.HandleFunc liveURLPath HealthHandler.livenessHandler
  (router2, { ready := readyCell, liveness := livenessCell })

/-- The updater `readyFn` that `CreateAndHandleReadinessLiveness` returns. -/
def readyFn (p : Probes) (value : Bool) : Probes :=
  { p with ready := updateFn p.ready value }

/-- The updater `livenessFn` that `CreateAndHandleReadinessLiveness` returns. -/
def livenessFn (p : Probes) (value : Bool) : Probes :=
  { p with liveness := updateFn p.liveness value }

/-- Whether a route accepts the method of a request. -/
def Route.acceptsMethod (route : Route) (method : String) : Bool :=
  route.methods.isEmpty || route.methods.contains method

/-- The library method `router.ServeHTTP` for a request with the given method
and path: the first route that matches both answers; when routes match the
path but none the method the answer is 405, and when no route matches the path
it is `http.NotFound`. -/
def Router.ServeHTTP (router : Router) (p : Probes) (method path : String)
    (w : ResponseWriter) : Outcome ResponseWriter :=
  match router.find? (fun route => route.path == path && route.acceptsMethod method) with
  | some route =>
      match route.handler with
      | HealthHandler.readyHandler => handler p.ready w
      | HealthHandler.livenessHandler => handler p.liveness w
  | none =>
      if router.any (fun route => route.path == path) then
        Outcome.returned (w.WriteHeader 405)
      else
        Outcome.returned (httpError w "404 page not found" 404)

end server

/-! ## Package `apiclient` -/

namespace apiclient

/-- The fields of an `*http.Request` that the client code reads or writes.
`URL` is the text of the `URL` field, `none` for a request whose `URL` field is
nil; `Header` is the header map, which `http.NewRequest` always allocates, with
one value for each key; `Body` is the content of the body reader. -/
structure Request where
  Method : String
  URL : Option String
  Header : List (String × String)
  Close : Bool
  ctx : Context
  Body : Option String := none
deriving DecidableEq, Repr

/-- The method `req.WithContext(ctx)`: a shallow copy with the context changed. -/
def Request.WithContext (req : Request) (ctx : Context) : Request :=
  { req with ctx := ctx }

/-- An `*http.Response`. `Body` is what reading the body to its end yields and
`BodyErr` the error that ends the reading, `none` when it ends with `io.EOF`. -/
structure Response where
  StatusCode : Int
  Body : String
  BodyErr : Option GoError := none
deriving DecidableEq, Repr

/-- The pair `(*http.Response, error)` that a `Do` method returns. -/
structure Result where
  resp : Option Response
  err : Option GoError
deriving DecidableEq, Repr

/-- The struct `pester.ErrEntry` (without its `Time` field). -/
structure ErrEntry where
  Method : String
  URL : String
  Verb : String
  Request : Int
  Retry : Int
  Attempt : Int
  Err : Option GoError
deriving DecidableEq, Repr

/-- One pass through the reporting branch of the log hook: the entry it was
given and the value the branch builds. -/
structure Built where
  entry : ErrEntry
  value : GoError
deriving DecidableEq, Repr

/-- Everything the client code reads or changes outside its arguments:
the number of requests the transport has answered, the three expvar metrics of
`trace.go`, the output of the default logrus logger, the `ErrLog` of the
retrying client and the backoff waits it made. `blank` is a ghost trace of the
values that the source assigns to the blank identifier `_`. -/
structure World where
  requestCount : Nat
  httpClientNewConnCounter : Nat
  httpClientReusedConnCounter : Nat
  httpClientConnPrepHistogram : List Nat
  logOutput : List LogRecord
  blank : List Built
  ErrLog : List ErrEntry
  backoffs : List Nat
deriving DecidableEq, Repr

/-- A world in which nothing has happened yet. -/
def World.init : World :=
  { requestCount := 0, httpClientNewConnCounter := 0, httpClientReusedConnCounter := 0,
    httpClientConnPrepHistogram := [], logOutput := [], blank := [], ErrLog := [],
    backoffs := [] }

/-- An `*http.Client` with its transport and server: `Do n req` is the answer
to `req` when `n` requests were answered before it. -/
structure HTTPClient where
  Do : Nat → Request → Result

/-- The interface `RetryClient`, as its one method `Do`. -/
abbrev RetryClient := Request → World → Outcome Result × World

/-- The retrying client of the third-party library `github.com/sethgrid/pester`
(type `pester.Client`), with the fields that `NewExtendedHTTPClient` sets or that
decide which attempts are made. `Concurrency` stays at the library default 1
and `Backoff` only chooses how long the wait between two attempts is. -/
structure PesterClient where
  hc : HTTPClient
  MaxRetries : Int
  KeepLog : Bool
  LogHook : Option (ErrEntry → World → World)
  RetryOnHTTP429 : Bool

/-- The library function `pester.NewExtendedClient(hc)`: the defaults of
`pester.DefaultClient` (three attempts, no log hook) around `hc`. -/
def NewExtendedClient (hc : HTTPClient) : PesterClient :=
  { hc := hc, MaxRetries := 3, KeepLog := false, LogHook := none, RetryOnHTTP429 := false }

/-- The library method `(*pester.Client).log`: keep the entry in `ErrLog`, or
else pass it to the log hook when there is one. -/
def PesterClient.log (c : PesterClient) (e : ErrEntry) (w : World) : World :=
  if c.KeepLog then
    { w with ErrLog := w.ErrLog ++ [e] }
  else
    match c.LogHook with
    | some hook => hook e w
    | none => w

/-- The test of the retry loop of the library for a result to hand back at
once: `err == nil && resp.StatusCode < 500 && (resp.StatusCode != 429 ||
(resp.StatusCode == 429 && !c.RetryOnHTTP429))`. Reading the status of a nil
response panics. -/
def PesterClient.accepts (c : PesterClient) (r : Result) : Outcome Bool :=
  match r.err with
  | some _ => Outcome.returned false
  | none =>
      match r.resp with
      | none => Outcome.panicked "invalid memory address or nil pointer dereference"
      | some resp =>
          Outcome.returned
            (decide (resp.StatusCode < 500) &&
              (resp.StatusCode != 429 || (resp.StatusCode == 429 && !c.RetryOnHTTP429)))

/-- The retry loop of the library, `for i := 1; i <= AttemptLimit; i++`, for
the one goroutine that runs with `Concurrency` 1. `fuel` bounds the number of
iterations; a loop that ends without a result leaves the caller blocked. -/
def PesterClient.attempts (c : PesterClient) (req : Request) (url : String)
    (AttemptLimit : Nat) : Nat → Nat → World → Outcome Result × World
  | 0, _, w => (Outcome.blocked, w)
  | fuel + 1, i, w =>
      if i ≤ AttemptLimit then
        let r := c.hc.Do w.requestCount req
        let w1 := { w with requestCount := w.requestCount + 1 }
        match c.accepts r with
        | Outcome.panicked reason => (Outcome.panicked reason, w1)
        | Outcome.blocked => (Outcome.blocked, w1)
        | Outcome.returned true => (Outcome.returned r, w1)
        | Outcome.returned false =>
            let w2 := c.log
              { Method := "Do", URL := url, Verb := req.Method, Request := 0,
                Retry := (i : Int) + 1, Attempt := (i : Int), Err := r.err } w1
            if i = AttemptLimit then
              (Outcome.returned { resp := r.resp, err := r.err }, w2)
            else
              match req.ctx.err with
              | some ctxErr => (Outcome.returned { resp := r.resp, err := some ctxErr }, w2)
              | none =>
                  PesterClient.attempts c req url AttemptLimit fuel (i + 1)
                    { w2 with backoffs := w2.backoffs ++ [i] }
      else
        (Outcome.blocked, w)

/-- The attempt limit of the library: `MaxRetries`, or 1 when that is not
positive. -/
def PesterClient.AttemptLimit (c : PesterClient) : Nat :=
  if c.MaxRetries ≤ 0 then 1 else c.MaxRetries.toNat

/-- The library method `(*pester.Client).Do`. It reads `req.URL.String()`
first, which panics on a nil URL. -/
def PesterClient.Do (c : PesterClient) : RetryClient :=
  fun req w =>
    match req.URL with
    | none => (Outcome.panicked "invalid memory address or nil pointer dereference", w)
    | some url => c.attempts req url c.AttemptLimit c.AttemptLimit 1 w

/-- The function `createLogHook`. The value the branch builds with
`errors.Wrapf` is assigned to `_`; the logger is not called. -/
def createLogHook (maxRetries : Int) : ErrEntry → World → World :=
  fun errEntry w =>
    if errEntry.Attempt < maxRetries then
      let origErr :=
        match errEntry.Err with
        | some e => e
        | none => GoError.errorf "unknown error"
      { w with blank := w.blank ++
          [{ entry := errEntry,
             value := GoError.wrap origErr
               ("attempt:" ++ toString errEntry.Attempt ++ " retrying") }] }
    else
      w

/-- The function `InstrumentHTTPRequest`: the request it returns, the done
function it returns (`none` is the nil function) and the metrics it records. -/
def InstrumentHTTPRequest (req : Request) (w : World) :
    (Request × Option (World → World)) × World :=
  let w1 := { w with httpClientReusedConnCounter := w.httpClientReusedConnCounter + 1 }
  let w2 := { w1 with httpClientConnPrepHistogram := w1.httpClientConnPrepHistogram ++ [0] }
  ((req.WithContext context.Background, none), w2)

/-- The struct `InstrumentedHttpClient`. -/
structure InstrumentedHttpClient where
  client : RetryClient

/-- The method `InstrumentedHttpClient.Do`. The deferred `requestDone()` runs
when the inner call has returned or panicked; calling a nil function panics. -/
def InstrumentedHttpClient.Do (ihc : InstrumentedHttpClient) : RetryClient :=
  fun req w =>
    match InstrumentHTTPRequest req w with
    | ((req1, requestDone), w1) =>
        match ihc.client req1 w1 with
        | (Outcome.blocked, w2) => (Outcome.blocked, w2)
        | (out, w2) =>
            match requestDone with
            | none =>
                (Outcome.panicked "invalid memory address or nil pointer dereference", w2)
            | some done => (out, done w2)

/-- The retrying client that `NewExtendedHTTPClient` configures (its local
variable `rc`). -/
def retryingClient (maxRetries : Int) (hc : HTTPClient) : PesterClient :=
  let rc := NewExtendedClient hc
  let rc := { rc with MaxRetries := maxRetries }
  let rc := { rc with KeepLog := false }
  { rc with LogHook := some (createLogHook maxRetries) }

/-- The function `NewExtendedHTTPClient`. -/
def NewExtendedHTTPClient (maxRetries : Int) (hc : HTTPClient) : InstrumentedHttpClient :=
  { client := (retryingClient maxRetries hc).Do }

/-- The handler of `Test_NewExtendedHTTPClient` behind `ts.Client()`, for any
number `k` of failures: status 500 with no body while at most `k` requests
were counted, then the body `hello` with status 200. -/
def testServer (k : Nat) : HTTPClient :=
  { Do := fun n _ =>
      if n + 1 ≤ k then
        { resp := some { StatusCode := 500, Body := "" }, err := none }
      else
        { resp := some { StatusCode := 200, Body := "hello" }, err := none } }

/-- The scenario of a server that fails `k` times and then succeeds: the
transport answers its first `k` requests with status 500 and every later one
with status 200, always with a nil error. -/
def FailsFirst (k : Nat) (hc : HTTPClient) : Prop :=
  ∀ n req, ∃ resp, hc.Do n req = { resp := some resp, err := none } ∧
    resp.StatusCode = if n < k then 500 else 200

/-- The pass through the reporting branch of the log hook that the retry loop
causes for attempt `j` when that attempt ended with a nil error. -/
def reported (url verb : String) (j : Nat) : Built :=
  { entry := { Method := "Do", URL := url, Verb := verb, Request := 0,
               Retry := (j : Int) + 1, Attempt := (j : Int), Err := none },
    value := GoError.wrap (GoError.errorf "unknown error")
      ("attempt:" ++ toString (j : Int) ++ " retrying") }

/-- An answer that the retry loop of the retrying client counts as a failed
attempt: a non-nil error, with or without a response, or a nil error with a
response whose status is 500 or more. -/
def Result.failed (r : Result) : Bool :=
  match r.err, r.resp with
  | some _, _ => true
  | none, some resp => decide (500 ≤ resp.StatusCode)
  | none, none => false

/-- An answer that the retry loop of the retrying client hands back at once: a
nil error with a response whose status is below 500. -/
def Result.succeeded (r : Result) : Bool :=
  match r.err, r.resp with
  | none, some resp => decide (resp.StatusCode < 500)
  | _, _ => false

/-- The pass through the reporting branch of the log hook that the retry loop
causes for attempt `j` when that attempt ended with the error `err`, nil or
not: the entry the loop hands to the hook and the value the branch builds from
it. -/
def reportedWith (url verb : String) (j : Nat) (err : Option GoError) : Built :=
  { entry := { Method := "Do", URL := url, Verb := verb, Request := 0,
               Retry := (j : Int) + 1, Attempt := (j : Int), Err := err },
    value := GoError.wrap (err.getD (GoError.errorf "unknown error"))
      ("attempt:" ++ toString (j : Int) ++ " retrying") }

/-- A transport whose server is unreachable at first: the first request ends
with the error `connection refused` and no response, the second is answered
with status 503, the third with status 502 and every later one with status 200
and the body `hello`. -/
def flakyServer : HTTPClient :=
  { Do := fun n _ =>
      match n with
      | 0 => { resp := none, err := some (GoError.errorf "connection refused") }
      | 1 => { resp := some { StatusCode := 503, Body := "" }, err := none }
      | 2 => { resp := some { StatusCode := 502, Body := "" }, err := none }
      | _ => { resp := some { StatusCode := 200, Body := "hello" }, err := none } }

/-- The request of `Test_NewExtendedHTTPClient`: `http.NewRequest("POST", ts.URL, nil)`. -/
def testRequest : Request :=
  { Method := "POST", URL := some "http://127.0.0.1:8080", Header := [], Close := false,
    ctx := context.Background }

/-- The request of the test sent with a context that has been cancelled. -/
def canceledRequest : Request :=
  { testRequest with ctx := { id := 1, err := some context.Canceled, deadline := none } }

/-- The entries that `Test_createLogHook` passes to the hook: attempt `i + 1`
with the error `fmt.Errorf("myerror")`, every other field zero. -/
def testEntry (attempt : Int) : ErrEntry :=
  { Method := "", URL := "", Verb := "", Request := 0, Retry := 0, Attempt := attempt,
    Err := some (GoError.errorf "myerror") }

/-- An inner client that answers every call at once with status 200 and the
body `hello`. -/
def helloClient : RetryClient :=
  fun _ w => (Outcome.returned { resp := some { StatusCode := 200, Body := "hello" }, err := none }, w)

/-! ### URLs, paths and query values

A Go string is a string of bytes. In the definitions below a `String` stands
for the Go string that has one byte for each of its characters, so that a
percent escape is one character. -/

/-- The digit of `"0123456789ABCDEF"` for a number below 16. -/
def upperhex (n : Nat) : Char :=
  if n < 10 then Char.ofNat (48 + n) else Char.ofNat (55 + n)

/-- The library function `unhex`, `none` for a byte that `ishex` rejects. -/
def unhex (c : Char) : Option Nat :=
  if 48 ≤ c.toNat ∧ c.toNat ≤ 57 then some (c.toNat - 48)
  else if 97 ≤ c.toNat ∧ c.toNat ≤ 102 then some (c.toNat - 97 + 10)
  else if 65 ≤ c.toNat ∧ c.toNat ≤ 70 then some (c.toNat - 65 + 10)
  else none

/-- Letters and digits of ASCII. -/
def isAlnum (c : Char) : Bool :=
  (97 ≤ c.toNat && c.toNat ≤ 122) || (65 ≤ c.toNat && c.toNat ≤ 90) ||
    (48 ≤ c.toNat && c.toNat ≤ 57)

/-- The escaping modes of `net/url` that `URL.String` and `Values.Encode`
reach. -/
inductive encoding where
  | encodePath
  | encodeHost
  | encodeUserPassword
  | encodeQueryComponent
  | encodeFragment
deriving DecidableEq, Repr

/-- The library function `shouldEscape(c, mode)` of `net/url`. Code 39 is the
apostrophe and code 34 the double quote. -/
def shouldEscape (c : Char) (mode : encoding) : Bool :=
  if isAlnum c then false
  else if mode == encoding.encodeHost &&
      (['!', '$', '&', '(', ')', '*', '+', ',', ';', '=', ':', '[', ']', '<', '>'].contains c ||
        c.toNat == 39 || c.toNat == 34) then false
  else if ['-', '_', '.', '~'].contains c then false
  else if ['$', '&', '+', ',', '/', ':', ';', '=', '?', '@'].contains c then
    match mode with
    | encoding.encodePath => c == '?'
    | encoding.encodeUserPassword => c == '@' || c == '/' || c == '?' || c == ':'
    | encoding.encodeQueryComponent => true
    | encoding.encodeFragment => false
    | encoding.encodeHost => true
  else if mode == encoding.encodeFragment && ['!', '(', ')', '*'].contains c then false
  else true

/-- The library function `escape(s, mode)` of `net/url`. -/
def escape (s : String) (mode : encoding) : String :=
  String.mk (s.data.flatMap (fun c =>
    if c == ' ' && mode == encoding.encodeQueryComponent then ['+']
    else if shouldEscape c mode then ['%', upperhex (c.toNat / 16), upperhex (c.toNat % 16)]
    else [c]))

/-- The library function `url.QueryEscape`. -/
def QueryEscape (s : String) : String := escape s encoding.encodeQueryComponent

/-- The library function `unescape(s, encodeQueryComponent)` on the bytes of a
string: `none` for a percent sign that two hex digits do not follow. -/
def unescapeChars : List Char → Option (List Char)
  | [] => some []
  | c :: rest =>
      if c == '%' then
        match rest with
        | a :: b :: rest2 =>
            match unhex a, unhex b, unescapeChars rest2 with
            | some x, some y, some tail => some (Char.ofNat (16 * x + y) :: tail)
            | _, _, _ => none
        | _ => none
      else
        match unescapeChars rest with
        | some tail => some ((if c == '+' then ' ' else c) :: tail)
        | none => none

/-- The library function `url.QueryUnescape`. -/
def QueryUnescape (s : String) : Option String :=
  (unescapeChars s.data).map String.mk

/-- The pieces of a byte string between the occurrences of `sep`
(`strings.Split`). -/
def splitChars (sep : Char) : List Char → List (List Char)
  | [] => [[]]
  | c :: rest =>
      if c == sep then [] :: splitChars sep rest
      else
        match splitChars sep rest with
        | [] => [[c]]
        | piece :: pieces => (c :: piece) :: pieces

/-- The library function `strings.Cut(s, sep)` for a one-byte separator,
without its third result. -/
def cutChars (sep : Char) : List Char → List Char × List Char
  | [] => ([], [])
  | c :: rest =>
      if c == sep then ([], rest)
      else ((c :: (cutChars sep rest).1), (cutChars sep rest).2)

/-- The type `url.Values`, a map from a key to its values: each key occurs
once. -/
abbrev Values := List (String × List String)

/-- The statement `m[key] = append(m[key], value)`. -/
def Values.add : Values → String → String → Values
  | [], key, value => [(key, [value])]
  | (k, vs) :: rest, key, value =>
      if k == key then (k, vs ++ [value]) :: rest
      else (k, vs) :: Values.add rest key value

/-- The statement `q[key] = append([]string{}, value...)`. -/
def Values.assign : Values → String → List String → Values
  | [], key, value => [(key, value)]
  | (k, vs) :: rest, key, value =>
      if k == key then (k, value) :: rest
      else (k, vs) :: Values.assign rest key value

/-- The library function `url.ParseQuery` without its error result, as
`URL.Query` uses it: pieces between `&`; a piece with a semicolon, an empty
piece and a piece whose key or value cannot be unescaped are dropped. -/
def ParseQuery (query : String) : Values :=
  (splitChars '&' query.data).foldl (fun m piece =>
    if piece.contains ';' then m
    else if piece.isEmpty then m
    else
      match unescapeChars (cutChars '=' piece).1, unescapeChars (cutChars '=' piece).2 with
      | some key, some value => Values.add m (String.mk key) (String.mk value)
      | _, _ => m) []

/-- The values of a key in the map (`m[key]`), `none` for an absent key. -/
def Values.get : Values → String → Option (List String)
  | [], _ => none
  | (k, vs) :: rest, key => if k == key then some vs else Values.get rest key

/-- The order of Go strings, byte by byte, as `a <= b`. -/
def bytesLE : List Char → List Char → Bool
  | [], _ => true
  | _ :: _, [] => false
  | a :: as, b :: bs =>
      if a.toNat < b.toNat then true
      else if b.toNat < a.toNat then false
      else bytesLE as bs

/-- Inserts an entry before the first entry with a greater key. -/
def insertByKey (e : String × List String) : Values → Values
  | [] => [e]
  | x :: rest => if bytesLE x.1.data e.1.data then x :: insertByKey e rest else e :: x :: rest

/-- The entries of a map sorted by key, in the byte order of `sort.Strings`. -/
def Values.sorted : Values → Values
  | [] => []
  | e :: rest => insertByKey e (Values.sorted rest)

/-- The library method `Values.Encode`: for each key in sorted order and each
of its values the text `key=value`, both escaped, joined by `&`. -/
def Values.Encode (v : Values) : String :=
  "&".intercalate
    ((Values.sorted v).flatMap (fun e => e.2.map (fun value =>
      QueryEscape e.1 ++ "=" ++ QueryEscape value)))

/-- The library function `unescape(s, mode)` for the modes `encodePath` and
`encodeFragment` on the bytes of a string: percent escapes are decoded and a
plus sign is kept; `none` for a percent sign that two hex digits do not
follow. -/
def unescapePlain : List Char → Option (List Char)
  | [] => some []
  | c :: rest =>
      if c == '%' then
        match rest with
        | a :: b :: rest2 =>
            match unhex a, unhex b, unescapePlain rest2 with
            | some x, some y, some tail => some (Char.ofNat (16 * x + y) :: tail)
            | _, _, _ => none
        | _ => none
      else
        match unescapePlain rest with
        | some tail => some (c :: tail)
        | none => none

/-- The library function `validEncoded(s, mode)` of `net/url`. Code 39 is the
apostrophe. -/
def validEncoded (s : String) (mode : encoding) : Bool :=
  s.data.all (fun c =>
    if ['!', '$', '&', '(', ')', '*', '+', ',', ';', '=', ':', '@'].contains c ||
        c.toNat == 39 then true
    else if c == '[' || c == ']' then true
    else if c == '%' then true
    else !shouldEscape c mode)

/-- The struct `url.Userinfo`. -/
structure Userinfo where
  username : String
  password : String
  passwordSet : Bool
deriving DecidableEq, Repr

/-- The library method `(*Userinfo).String` for a value that is not nil. -/
def Userinfo.String (u : Userinfo) : String :=
  let s := escape u.username encoding.encodeUserPassword
  if u.passwordSet then s ++ ":" ++ escape u.password encoding.encodeUserPassword else s

/-- The struct `url.URL` with all its fields; `User` is `none` for nil. A field
that is not named has its zero value. -/
structure URL where
  Scheme : String
  Opaque : String := ""
  User : Option Userinfo := none
  Host : String
  Path : String
  RawPath : String := ""
  OmitHost : Bool := false
  ForceQuery : Bool := false
  RawQuery : String
  Fragment : String := ""
  RawFragment : String := ""
deriving DecidableEq, Repr

/-- The library method `u.Query()`. -/
def URL.Query (u : URL) : Values := ParseQuery u.RawQuery

/-- The library method `u.EscapedPath()`: `RawPath` when it is a valid encoding
of `Path`, else the escaped `Path`. -/
def URL.EscapedPath (u : URL) : String :=
  if u.RawPath != "" && validEncoded u.RawPath encoding.encodePath &&
      unescapePlain u.RawPath.data == some u.Path.data then u.RawPath
  else if u.Path == "*" then "*"
  else escape u.Path encoding.encodePath

/-- The library method `u.EscapedFragment()`. -/
def URL.EscapedFragment (u : URL) : String :=
  if u.RawFragment != "" && validEncoded u.RawFragment encoding.encodeFragment &&
      unescapePlain u.RawFragment.data == some u.Fragment.data then u.RawFragment
  else escape u.Fragment encoding.encodeFragment

/-- The library method `u.String()`. -/
def URL.String (u : URL) : String :=
  let buf := if u.Scheme != "" then u.Scheme ++ ":" else ""
  let buf :=
    if u.Opaque != "" then buf ++ u.Opaque
    else
      let buf :=
        if u.Scheme != "" || u.Host != "" || u.User.isSome then
          if u.OmitHost && u.Host == "" && u.User.isNone then buf
          else
            let buf :=
              if u.Host != "" || u.Path != "" || u.User.isSome then buf ++ "//" else buf
            let buf :=
              match u.User with
              | some ui => buf ++ ui.String ++ "@"
              | none => buf
            if u.Host != "" then buf ++ escape u.Host encoding.encodeHost else buf
        else buf
      let path := u.EscapedPath
      let buf :=
        if path != "" && path.data.head? != some '/' && u.Host != "" then buf ++ "/" else buf
      let buf :=
        if buf == "" && (cutChars '/' path.data).1.contains ':' then buf ++ "./" else buf
      buf ++ path
  let buf := if u.ForceQuery || u.RawQuery != "" then buf ++ "?" ++ u.RawQuery else buf
  if u.Fragment != "" then buf ++ "#" ++ u.EscapedFragment else buf

/-- The elements of a path for `path.Clean`: the pieces between slashes that
are neither empty nor `.`. -/
def pathElements (p : List Char) : List (List Char) :=
  (splitChars '/' p).filter (fun e => !e.isEmpty && e != ['.'])

/-- The elements that `path.Clean` keeps, last element first: `..` removes the
element before it, is dropped at the root of a rooted path and is kept at the
start of a path that is not rooted. -/
def cleanElements (rooted : Bool) : List (List Char) → List (List Char) → List (List Char)
  | stack, [] => stack
  | stack, e :: rest =>
      if e == ['.', '.'] then
        match stack with
        | top :: below =>
            if top == ['.', '.'] then cleanElements rooted (e :: stack) rest
            else cleanElements rooted below rest
        | [] =>
            if rooted then cleanElements rooted [] rest
            else cleanElements rooted [e] rest
      else cleanElements rooted (e :: stack) rest

/-- The library function `path.Clean`. -/
def pathClean (p : String) : String :=
  if p == "" then "."
  else
    let rooted := p.data.head? == some '/'
    let kept := (cleanElements rooted [] (pathElements p.data)).reverse
    let body := String.mk (List.intercalate ['/'] kept)
    if rooted then "/" ++ body
    else if kept.isEmpty then "."
    else body

/-- The library function `path.Join` for two elements: the elements that are not
empty joined by a slash and cleaned, or the empty string when both are empty. -/
def pathJoin (a b : String) : String :=
  if a == "" && b == "" then ""
  else if a == "" then pathClean b
  else if b == "" then pathClean a
  else pathClean (a ++ "/" ++ b)

/-- The bytes that `validHeaderFieldByte` and `validMethod` accept: the token
characters of HTTP. Code 39 is the apostrophe and code 96 the backquote. -/
def isTokenChar (c : Char) : Bool :=
  isAlnum c || ['!', '#', '$', '%', '&', '*', '+', '-', '.', '^', '_', '|', '~'].contains c ||
    c.toNat == 39 || c.toNat == 96

/-- The loop of `canonicalMIMEHeaderKey`: upper case at the start and after
each dash, lower case elsewhere. -/
def canonicalChars : Bool → List Char → List Char
  | _, [] => []
  | upper, c :: rest =>
      let c1 :=
        if upper && (97 ≤ c.toNat && c.toNat ≤ 122) then Char.ofNat (c.toNat - 32)
        else if !upper && (65 ≤ c.toNat && c.toNat ≤ 90) then Char.ofNat (c.toNat + 32)
        else c
      c1 :: canonicalChars (c1 == '-') rest

/-- The library function `textproto.CanonicalMIMEHeaderKey`: a key with a byte
that is no token character is returned as it is. -/
def CanonicalMIMEHeaderKey (s : String) : String :=
  if s.data.all isTokenChar then String.mk (canonicalChars true s.data) else s

/-- The method `request.Header.Set(key, value)`. -/
def Request.HeaderSet (req : Request) (key value : String) : Request :=
  { req with
    Header := (CanonicalMIMEHeaderKey key, value) ::
      req.Header.filter (fun kv => kv.1 != CanonicalMIMEHeaderKey key) }

/-- The library function `http.NewRequest(method, url, body)`. The syntax check
of `url.Parse` is not modelled: `parse` stands for it and gives the error for a
text that it rejects. The request keeps the text of the URL. -/
def NewRequest (parse : String → Option GoError) (method url : String)
    (body : Option String) : Except GoError Request :=
  let method := if method == "" then "GET" else method
  if !(method.data.all isTokenChar) then
    Except.error (GoError.errorf ("net/http: invalid method " ++ method))
  else
    match parse url with
    | some err => Except.error err
    | none =>
        Except.ok { Method := method, URL := some url, Header := [], Close := false,
                    ctx := context.Background, Body := body }

/-! ### The client of `client.go` -/

/-- The struct `Response` of `client.go`, the response of the `APIClient`. -/
structure APIResponse where
  Body : String
  StatusCode : Int
  OriginalRequest : Option Request
  FaultString : String
deriving DecidableEq, Repr

/-- The struct `Client`. `BaseURL` is not nil, as `InitClient` leaves it. -/
structure Client where
  BaseURL : URL
  UserAgent : String
  RequiresAuthorization : Bool
  AuthHeaderName : String
  AuthKey : String
  HTTPClient : RetryClient

/-- A call `log.Errorf` with the finished message. -/
def World.Errorf (w : World) (msg : String) : World :=
  { w with logOutput := w.logOutput ++ [{ level := "error", msg := msg }] }

/-- The request as `Client.Do` passes it to `c.HTTPClient.Do`: the part of `Do`
from `if c.RequiresAuthorization` to `request.Close = true`. -/
def Client.prepare (c : Client) (ctx : Context) (request : Request) : Request :=
  let request :=
    if c.RequiresAuthorization then
      if c.AuthHeaderName != "" then
        request.HeaderSet c.AuthHeaderName c.AuthKey
      else
        request.HeaderSet "Authorization" c.AuthKey
    else request
  let request := request.WithContext ctx
  { request with Close := true }

/-- The method `Client.Do`. The call `log.Debugf` writes nothing at the default
level of logrus. A nil response with a nil error makes `response.Body` panic;
the body of a response that is not nil is not nil either, as `http.Client`
guarantees. -/
def Client.Do (c : Client) (ctx : Context) (request : Option Request) (w : World) :
    Outcome (Option APIResponse × Option GoError) × World :=
  match request with
  | none =>
      (Outcome.returned
          (none, some (GoError.errorf "request was NIL, can not execute do request")),
        w.Errorf "client.DO request was NIL, can not execute do request")
  | some request =>
      let resp : APIResponse :=
        { Body := "", StatusCode := 0, OriginalRequest := none, FaultString := "" }
      let request := c.prepare ctx request
      match c.HTTPClient request w with
      | (Outcome.panicked reason, w1) => (Outcome.panicked reason, w1)
      | (Outcome.blocked, w1) => (Outcome.blocked, w1)
      | (Outcome.returned result, w1) =>
          match result.err with
          | some err =>
              let resp := { resp with StatusCode := 500 }
              let w2 := w1.Errorf ("Error sending HTTP request to " ++
                request.URL.getD "<nil>" ++ ": " ++ err.Error)
              match ctx.err with
              | some ctxErr => (Outcome.returned (some resp, some ctxErr), w2)
              | none => (Outcome.returned (some resp, some err), w2)
          | none =>
              match result.resp with
              | none =>
                  (Outcome.panicked "invalid memory address or nil pointer dereference", w1)
              | some response =>
                  let resp := { resp with Body := response.Body }
                  match response.BodyErr with
                  | some err =>
                      let resp := { resp with StatusCode := 500 }
                      (Outcome.returned (some resp, some err),
                        w1.Errorf ("Error reading HTTP response body: " ++ err.Error ++ "\n"))
                  | none =>
                      let resp := { resp with OriginalRequest := some request }
                      let resp := { resp with StatusCode := response.StatusCode }
                      (Outcome.returned (some resp, none), w1)

/-- The URL that `Get` and `PostWithQueryParams` build: the base URL with the
joined path and, for parameters that are not empty, the encoded query. -/
def Client.urlWithQuery (c : Client) (urlPath : String) (queryParams : Option Values) : URL :=
  match queryParams with
  | some params =>
      if params.length > 0 then
        let q := params.foldl (fun q kv => Values.assign q kv.1 kv.2) c.BaseURL.Query
        let u := c.BaseURL
        let u := { u with Path := pathJoin u.Path urlPath }
        { u with RawQuery := q.Encode }
      else
        let u := c.BaseURL
        { u with Path := pathJoin u.Path urlPath }
  | none =>
      let u := c.BaseURL
      { u with Path := pathJoin u.Path urlPath }

/-- The URL that `Post`, `Put` and `Delete` build. -/
def Client.urlPlain (c : Client) (urlPath : String) : URL :=
  let u := c.BaseURL
  { u with Path := pathJoin u.Path urlPath }

/-- The method `Client.Get`. -/
def Client.Get (parse : String → Option GoError) (c : Client) (ctx : Context)
    (urlPath : String) (queryParams : Option Values) (w : World) :
    Outcome (Option APIResponse × Option GoError) × World :=
  let u := c.urlWithQuery urlPath queryParams
  match NewRequest parse "GET" u.String none with
  | Except.error err =>
      (Outcome.returned (none, some err),
        w.Errorf ("error creating GET request: " ++ err.Error))
  | Except.ok request =>
      let request := request.HeaderSet "Accept" "application/json"
      let request := request.HeaderSet "User-Agent" c.UserAgent
      c.Do ctx (some request) w

/-- The method `Client.Put`. -/
def Client.Put (parse : String → Option GoError) (c : Client) (ctx : Context)
    (urlPath : String) (body : Option String) (w : World) :
    Outcome (Option APIResponse × Option GoError) × World :=
  let u := c.urlPlain urlPath
  match NewRequest parse "PUT" u.String body with
  | Except.error err =>
      (Outcome.returned (none, some err),
        w.Errorf ("failed to create PUT request: " ++ err.Error))
  | Except.ok request =>
      let request := request.HeaderSet "Content-Type" "application/json"
      let request := request.HeaderSet "User-Agent" c.UserAgent
      c.Do ctx (some request) w

/-- The method `Client.Delete`. -/
def Client.Delete (parse : String → Option GoError) (c : Client) (ctx : Context)
    (urlPath : String) (body : Option String) (w : World) :
    Outcome (Option APIResponse × Option GoError) × World :=
  let u := c.urlPlain urlPath
  match NewRequest parse "DELETE" u.String body with
  | Except.error err =>
      (Outcome.returned (none, some err),
        w.Errorf ("failed to create DELETE request: " ++ err.Error))
  | Except.ok request =>
      let request := request.HeaderSet "Content-Type" "application/json"
      let request := request.HeaderSet "User-Agent" c.UserAgent
      c.Do ctx (some request) w

/-- The method `Client.Post`. -/
def Client.Post (parse : String → Option GoError) (c : Client) (ctx : Context)
    (urlPath : String) (body : Option String) (w : World) :
    Outcome (Option APIResponse × Option GoError) × World :=
  let u := c.urlPlain urlPath
  match NewRequest parse "POST" u.String body with
  | Except.error err =>
      (Outcome.returned (none, some err),
        w.Errorf ("failed to create POST : " ++ err.Error))
  | Except.ok request =>
      let request := request.HeaderSet "Content-Type" "application/json"
      let request := request.HeaderSet "User-Agent" c.UserAgent
      c.Do ctx (some request) w

/-- The method `Client.PostWithQueryParams`. -/
def Client.PostWithQueryParams (parse : String → Option GoError) (c : Client)
    (ctx : Context) (urlPath : String) (queryParams : Option Values) (body : Option String)
    (w : World) : Outcome (Option APIResponse × Option GoError) × World :=
  let u := c.urlWithQuery urlPath queryParams
  match NewRequest parse "POST" u.String body with
  | Except.error err =>
      (Outcome.returned (none, some err),
        w.Errorf ("failed to create POST : " ++ err.Error))
  | Except.ok request =>
      let request := request.HeaderSet "Content-Type" "application/json"
      let request := request.HeaderSet "User-Agent" c.UserAgent
      c.Do ctx (some request) w

/-- The mock of `TestApiClient_Do_httpInternalServerError`: every call returns
status 500 with the body `OK` and a nil error. -/
def mockRetryClient : RetryClient :=
  fun _ w => (Outcome.returned { resp := some { StatusCode := 500, Body := "OK" }, err := none }, w)

/-- An underlying client that fails every call with a transport error. -/
def failingClient : RetryClient :=
  fun _ w => (Outcome.returned { resp := none, err := some (GoError.errorf "dial tcp: connection refused") }, w)

/-- The client of the tests: `InitClient(rc, base, "test", false, "")` for the
base URL of a test server with the path `basePath`. -/
def testClient (rc : RetryClient) (basePath : String) : Client :=
  { BaseURL := { Scheme := "http", Host := "127.0.0.1:8080", Path := basePath, RawQuery := "" },
    UserAgent := "test", RequiresAuthorization := false, AuthHeaderName := "", AuthKey := "",
    HTTPClient := rc }

/-- The request of `TestApiClient_Do_httpInternalServerError`: a GET request
whose `URL` field was set to nil. -/
def nilURLRequest : Request :=
  { Method := "GET", URL := none, Header := [], Close := false, ctx := context.Background }

/-- The relation between what a method of the client returns and the call of
the underlying client: `result` is the outcome of handing the request `sent` to
`c.HTTPClient.Do` in the world `w`. A panic and a call that never returns are
passed on, a response whose body is read to its end is returned with its
status and body and with `sent` as `OriginalRequest`, and an error is logged
with the URL of `sent`. -/
def Client.sends (c : Client) (sent : Request) (w : World)
    (result : Outcome (Option APIResponse × Option GoError) × World) : Prop :=
  (∀ reason w1, c.HTTPClient sent w = (Outcome.panicked reason, w1) →
    result = (Outcome.panicked reason, w1)) ∧
  (∀ w1, c.HTTPClient sent w = (Outcome.blocked, w1) → result = (Outcome.blocked, w1)) ∧
  (∀ status body w1,
    c.HTTPClient sent w =
      (Outcome.returned { resp := some { StatusCode := status, Body := body }, err := none },
        w1) →
    result =
      (Outcome.returned
        (some { Body := body, StatusCode := status, OriginalRequest := some sent,
                FaultString := "" }, none), w1)) ∧
  (∀ resp err w1,
    c.HTTPClient sent w = (Outcome.returned { resp := resp, err := some err }, w1) →
    result.2 = w1.Errorf ("Error sending HTTP request to " ++ sent.URL.getD "<nil>" ++ ": " ++
      err.Error))

/-- An underlying client that answers every request with status 200 and, as
the body, the method and the URL of the request it was given. -/
def echoClient : RetryClient :=
  fun req w =>
    (Outcome.returned
      { resp := some { StatusCode := 200, Body := req.Method ++ " " ++ req.URL.getD "<nil>" },
        err := none }, w)

/-- The client that `InitClient(rc, "localhost:8080", "test", false, "")`
returns: `url.ParseRequestURI` reads `localhost` as the scheme and, since the
rest does not start with a slash, `8080` as the opaque part. -/
def opaqueClient (rc : RetryClient) : Client :=
  { BaseURL := { Scheme := "localhost", Opaque := "8080", Host := "", Path := "", RawQuery := "" },
    UserAgent := "test", RequiresAuthorization := false, AuthHeaderName := "", AuthKey := "",
    HTTPClient := rc }

/-- The query parameters of `TestApiClient_Get_VerifyRequestURL`, set in the
order `name`, `friend`. -/
def testParams : Values := [("name", ["Ava"]), ("friend", ["Jess"])]

end apiclient


/-! ## Package `http` (files `builders.go` and `http.go`) -/

namespace builders

/-- The constant `time.Second`, in nanoseconds. -/
def Second : Int := 1000000000

/-- The value of an integer as an `int64`: conversions and products of
`time.Duration` wrap around modulo `2^64`. -/
def int64 (x : Int) : Int :=
  (x + 9223372036854775808) % 18446744073709551616 - 9223372036854775808

/-- An `*x509.CertPool` as `getCertPool` fills it: the PEM data given to
`AppendCertsFromPEM`, in the order of the calls. -/
structure CertPool where
  pem : List String
deriving DecidableEq, Repr

/-- The fields of `tls.Config` that `Build` sets; `RootCAs` is `none` for nil. -/
structure TLSConfig where
  InsecureSkipVerify : Bool
  RootCAs : Option CertPool
deriving DecidableEq, Repr

/-- The struct `http.Transport` with its TLS configuration and the settings of
the connection pool; a field that a composite literal does not name has its
zero value. Durations are in nanoseconds. -/
structure Transport where
  TLSClientConfig : TLSConfig
  IdleConnTimeout : Int
  MaxIdleConnsPerHost : Int
  MaxConnsPerHost : Int
  DisableCompression : Bool
deriving DecidableEq, Repr

/-- The struct `http.Client` of `net/http` with its `Timeout`, in nanoseconds,
and its transport. It has no field for a number of retries. -/
structure HttpClient where
  Timeout : Int
  Transport : Transport
deriving DecidableEq, Repr

/-- The struct `clientBuilder`. -/
structure clientBuilder where
  timeout : Int
  idleConnTimeout : Int
  maxIdleConnPerHost : Int
  maxConnPerHost : Int
  disableCompression : Bool
  maxRetries : Int
  tlsInsecureSkipVerify : Bool
  pemCertificates : String
deriving DecidableEq, Repr

/-- The function `NewClientBuilder`. -/
def NewClientBuilder : clientBuilder :=
  { timeout := 100, idleConnTimeout := 30, maxIdleConnPerHost := 16, maxConnPerHost := 32,
    disableCompression := false, maxRetries := 2, tlsInsecureSkipVerify := false,
    pemCertificates := "" }

/-- The method `Timeout`. -/
def clientBuilder.Timeout (b : clientBuilder) (seconds : Int) : clientBuilder :=
  { b with timeout := seconds }

/-- The method `IdleConnTimeout`. -/
def clientBuilder.IdleConnTimeout (b : clientBuilder) (seconds : Int) : clientBuilder :=
  { b with idleConnTimeout := seconds }

/-- The method `MaxIdleConnPerHost`. -/
def clientBuilder.MaxIdleConnPerHost (b : clientBuilder) (connections : Int) : clientBuilder :=
  { b with maxIdleConnPerHost := connections }

/-- The method `MaxConnPerHost`. -/
def clientBuilder.MaxConnPerHost (b : clientBuilder) (connections : Int) : clientBuilder :=
  { b with maxConnPerHost := connections }

/-- The method `DisableCompression`. -/
def clientBuilder.DisableCompression (b : clientBuilder) (flag : Bool) : clientBuilder :=
  { b with disableCompression := flag }

/-- The method `MaxRetries`. -/
def clientBuilder.MaxRetries (b : clientBuilder) (tries : Int) : clientBuilder :=
  { b with maxRetries := tries }

/-- The method `InsecureSkipVerify`. -/
def clientBuilder.InsecureSkipVerify (b : clientBuilder) (flag : Bool) : clientBuilder :=
  { b with tlsInsecureSkipVerify := flag }

/-- The method `PemCertificates`. -/
def clientBuilder.PemCertificates (b : clientBuilder) (pemCerts : String) : clientBuilder :=
  { b with pemCertificates := pemCerts }

/-- The function `getCertPool`. -/
def getCertPool (skip : Bool) (pemCerts : String) : Option CertPool :=
  if !skip then
    let pool : CertPool := { pem := [] }
    some { pool with pem := pool.pem ++ [pemCerts] }
  else
    none

/-- The method `Build`: `Timeout` is `time.Second * time.Duration(b.timeout)`,
the transport has the TLS configuration and nothing else set. -/
def clientBuilder.Build (b : clientBuilder) : HttpClient :=
  { Timeout := int64 (Second * int64 b.timeout),
    Transport :=
      { TLSClientConfig :=
          { InsecureSkipVerify := b.tlsInsecureSkipVerify,
            RootCAs := getCertPool b.tlsInsecureSkipVerify b.pemCertificates },
        IdleConnTimeout := 0, MaxIdleConnsPerHost := 0, MaxConnsPerHost := 0,
        DisableCompression := false } }

/-- The function `SetHTTPClient`: the new value of the package variable
`client`, given its old value. -/
def SetHTTPClient (builder : clientBuilder) (_client : HttpClient) : HttpClient :=
  builder.Build

/-- The function `GetHTTPClient`: the client that the returned pointer points
to, the package variable `client`. -/
def GetHTTPClient (client : HttpClient) : HttpClient := client

end builders

/-! ## Theorems: package `server` -/

namespace server

theorem errors_Is_iff_mem_chain (e target : GoError) :
    errors.Is (some e) target = true ↔ target ∈ e.chain := by
  simp only [errors.Is]
  induction e with
  | sentinel name =>
      simp only [GoError.Is, GoError.chain, beq_iff_eq, List.mem_singleton]
      exact eq_comm
  | errorf msg =>
      simp only [GoError.Is, GoError.chain, beq_iff_eq, List.mem_singleton]
      exact eq_comm
  | wrap cause msg ih =>
      simp only [GoError.Is, GoError.chain, Bool.or_eq_true, beq_iff_eq, List.mem_cons, ih]
      constructor
      · rintro (h | h)
        · exact Or.inl h.symm
        · exact Or.inr h
      · rintro (h | h)
        · exact Or.inl h.symm
        · exact Or.inr h

theorem isNormalShutdown_iff (err : Option GoError) :
    isNormalShutdown err = true ↔ ∃ e, err = some e ∧ http.ErrServerClosed ∈ e.chain := by
  cases err with
  | none => simp [isNormalShutdown, errors.Is]
  | some e => simp [isNormalShutdown, errors_Is_iff_mem_chain]

theorem step_not_serving (s s1 : LSState) (ev : Event) (h : step s ev = some s1)
    (hs : s.listenTask ≠ ListenTask.serving) :
    s1.listenTask ≠ ListenTask.serving ∧ s1.serverError = s.serverError ∧
      ∀ e, ev ≠ Event.serveReturns e := by
  obtain ⟨sg, st, lt, se, sc, lg⟩ := s
  cases ev <;> cases st <;> cases lt <;> rcases sg with _ | _ | _ | _ <;>
    simp [step, initiateShutdown] at h hs ⊢ <;>
    first
      | (subst h; simp)
      | (rename_i err; cases err <;> simp at h <;> subst h <;> simp)

theorem step_serving (s s1 : LSState) (ev : Event) (h : step s ev = some s1)
    (hs : s.listenTask = ListenTask.serving) (hev : ∀ e, ev ≠ Event.serveReturns e) :
    s1.listenTask = ListenTask.serving := by
  obtain ⟨sg, st, lt, se, sc, lg⟩ := s
  cases ev <;> cases st <;> cases lt <;> rcases sg with _ | _ | _ | _ <;>
    simp [step, initiateShutdown] at h hs hev ⊢ <;>
    first
      | (subst h; simp)
      | (rename_i err; cases err <;> simp at h <;> subst h <;> simp)

theorem step_serveReturns (s s1 : LSState) (e : Option GoError)
    (h : step s (Event.serveReturns e) = some s1) :
    s1.listenTask ≠ ListenTask.serving ∧ s1.serverError = e := by
  obtain ⟨sg, st, lt, se, sc, lg⟩ := s
  cases lt <;> simp [step] at h
  split at h <;> simp at h <;> subst h <;> simp

theorem run_cons (s s2 : LSState) (ev : Event) (evs : List Event)
    (h : run s (ev :: evs) = some s2) : ∃ s1, step s ev = some s1 ∧ run s1 evs = some s2 := by
  simp only [run] at h
  split at h
  · simp at h
  · rename_i s1 heq
    exact ⟨s1, heq, h⟩

theorem run_not_serving (evs : List Event) (s s2 : LSState) (h : run s evs = some s2)
    (hs : s.listenTask ≠ ListenTask.serving) :
    s2.listenTask ≠ ListenTask.serving ∧ s2.serverError = s.serverError ∧
      ∀ e, Event.serveReturns e ∉ evs := by
  induction evs generalizing s with
  | nil =>
      simp only [run, Option.some.injEq] at h
      subst h
      simp [hs]
  | cons ev evs ih =>
      obtain ⟨s1, h1, h2⟩ := run_cons s s2 ev evs h
      obtain ⟨a, b, c⟩ := step_not_serving s s1 ev h1 hs
      obtain ⟨a2, b2, c2⟩ := ih s1 h2 a
      refine ⟨a2, b2.trans b, ?_⟩
      intro e hmem
      rcases List.mem_cons.mp hmem with heq | hin
      · exact c e heq.symm
      · exact c2 e hin

theorem run_listener_error (evs : List Event) (s s2 : LSState) (h : run s evs = some s2)
    (hs : s.listenTask = ListenTask.serving) (hd : s2.listenTask ≠ ListenTask.serving) :
    Event.serveReturns s2.serverError ∈ evs ∧
      ∀ e, Event.serveReturns e ∈ evs → e = s2.serverError := by
  induction evs generalizing s with
  | nil =>
      simp only [run, Option.some.injEq] at h
      subst h
      exact absurd hs hd
  | cons ev evs ih =>
      obtain ⟨s1, h1, h2⟩ := run_cons s s2 ev evs h
      by_cases hev : ∃ e, ev = Event.serveReturns e
      · obtain ⟨e, rfl⟩ := hev
        obtain ⟨a, b⟩ := step_serveReturns s s1 e h1
        obtain ⟨_, b2, c2⟩ := run_not_serving evs s1 s2 h2 a
        have hse : s2.serverError = e := b2.trans b
        refine ⟨by simp [hse], ?_⟩
        intro e2 hmem
        rcases List.mem_cons.mp hmem with heq | hin
        · cases heq
          exact hse.symm
        · exact absurd hin (c2 e2)
      · have hev2 : ∀ e, ev ≠ Event.serveReturns e := fun e he => hev ⟨e, he⟩
        have a := step_serving s s1 ev h1 hs hev2
        obtain ⟨m1, m2⟩ := ih s1 h2 a
        refine ⟨List.mem_cons_of_mem _ m1, ?_⟩
        intro e2 hmem
        rcases List.mem_cons.mp hmem with heq | hin
        · exact absurd heq.symm (hev2 e2)
        · exact m2 e2 hin

theorem returnValue_some (s : LSState) (r : Option GoError) (h : returnValue s = some r) :
    s.signalTask = SignalTask.done ∧ s.listenTask = ListenTask.done ∧
      r = if isNormalShutdown s.serverError then none else s.serverError := by
  simp only [returnValue] at h
  split at h
  · rename_i h1 h2
    refine ⟨h1, h2, ?_⟩
    split at h <;> simp_all
  · simp at h

theorem ListenAndServe_some (evs : List Event) (r : Option GoError)
    (h : ListenAndServe evs = some r) :
    ∃ s, run LSState.init evs = some s ∧ returnValue s = some r := by
  simp only [ListenAndServe] at h
  split at h
  · simp at h
  · rename_i s heq
    exact ⟨s, heq, h⟩

end server

namespace server

theorem step_log_mono (s s1 : LSState) (ev : Event) (h : step s ev = some s1)
    (x : LogRecord) (hx : x ∈ s.log) : x ∈ s1.log := by
  obtain ⟨sg, st, lt, se, sc, lg⟩ := s
  cases ev <;> cases st <;> cases lt <;> rcases sg with _ | _ | _ | _ <;>
    simp [step, initiateShutdown] at h hx ⊢ <;>
    first
      | (subst h; simp [hx])
      | (rename_i err; cases err <;> simp at h <;> subst h <;> simp [hx])
      | (split at h <;> simp at h <;> subst h <;> simp [hx])

theorem run_log_mono (evs : List Event) (s s2 : LSState) (h : run s evs = some s2)
    (x : LogRecord) (hx : x ∈ s.log) : x ∈ s2.log := by
  induction evs generalizing s with
  | nil =>
      simp only [run, Option.some.injEq] at h
      subst h
      exact hx
  | cons ev evs ih =>
      obtain ⟨s1, h1, h2⟩ := run_cons s s2 ev evs h
      exact ih s1 h2 (step_log_mono s s1 ev h1 x hx)

theorem step_shutdown_error_logged (s s1 : LSState) (e : GoError)
    (h : step s (Event.shutdownReturns (some e)) = some s1) :
    { level := "error", msg := "graceful shutdown errored: " ++ e.Error } ∈ s1.log := by
  obtain ⟨sg, st, lt, se, sc, lg⟩ := s
  cases st <;> simp [step] at h
  subst h
  simp

theorem run_shutdown_error_logged (evs : List Event) (s s2 : LSState) (e : GoError)
    (h : run s evs = some s2) (hmem : Event.shutdownReturns (some e) ∈ evs) :
    { level := "error", msg := "graceful shutdown errored: " ++ e.Error } ∈ s2.log := by
  induction evs generalizing s with
  | nil => simp at hmem
  | cons ev evs ih =>
      obtain ⟨s1, h1, h2⟩ := run_cons s s2 ev evs h
      rcases List.mem_cons.mp hmem with heq | hin
      · subst heq
        exact run_log_mono evs s1 s2 h2 _ (step_shutdown_error_logged s s1 e h1)
      · exact ih s1 h2 hin

theorem handler_after_updates (updates : List Bool) (v : Bool) :
    updates.foldl updateFn (AtomicValue.mk (some v)) =
      AtomicValue.mk (some (updates.getLast?.getD v)) := by
  induction updates generalizing v with
  | nil => simp
  | cons u us ih =>
      simp only [List.foldl_cons, updateFn, AtomicValue.Store]
      rw [ih u, List.getLast?_cons]
      simp

/-- C5: when `ListenAndServe` returns, the listening task has terminated with
exactly one error `e`; the return value is nil when `isNormalShutdown e` holds,
as it does for `http.ErrServerClosed`, and `e` itself otherwise.
`isNormalShutdown` holds for `http.ErrServerClosed`, fails for nil and for an
error made by `fmt.Errorf`, and in general holds exactly for the errors that
`errors.Is` matches with `http.ErrServerClosed`. After either signal the call
does return nil once the listener has closed with `http.ErrServerClosed`,
whatever `srv.Shutdown` returns. -/
theorem ListenAndServe_returns_listener_error (evs : List Event) (r : Option GoError)
    (h : ListenAndServe evs = some r) :
    (∃ e, Event.serveReturns e ∈ evs ∧
      (∀ e2, Event.serveReturns e2 ∈ evs → e2 = e) ∧
      (e = some http.ErrServerClosed → r = none) ∧
      (isNormalShutdown e = true → r = none) ∧
      (isNormalShutdown e = false → r = e) ∧
      (isNormalShutdown e = true ↔ ∃ x, e = some x ∧ http.ErrServerClosed ∈ x.chain)) ∧
    isNormalShutdown (some http.ErrServerClosed) = true ∧
    isNormalShutdown none = false ∧
    (∀ msg, isNormalShutdown (some (GoError.errorf msg)) = false) ∧
    ∀ sig err,
      ListenAndServe [Event.notify sig, Event.recvSignal,
        Event.serveReturns (some http.ErrServerClosed), Event.shutdownReturns err] =
        some none := by
  obtain ⟨s, hrun, hret⟩ := ListenAndServe_some evs r h
  obtain ⟨_, hl, hr⟩ := returnValue_some s r hret
  have hd : s.listenTask ≠ ListenTask.serving := by simp [hl]
  obtain ⟨m1, m2⟩ := run_listener_error evs LSState.init s hrun rfl hd
  refine ⟨⟨s.serverError, m1, m2, ?_, ?_, ?_, isNormalShutdown_iff _⟩,
    by decide, by decide, ?_, ?_⟩
  · intro he
    rw [he] at hr
    simpa [isNormalShutdown, errors.Is, GoError.Is, http.ErrServerClosed] using hr
  · intro hn
    simpa [hn] using hr
  · intro hn
    simpa [hn] using hr
  · intro msg
    simp [isNormalShutdown, errors.Is, GoError.Is, http.ErrServerClosed]
  · intro sig err
    have hn : isNormalShutdown (some http.ErrServerClosed) = true := by decide
    cases sig <;> cases err <;>
      simp [ListenAndServe, run, step, LSState.init, initiateShutdown, returnValue, hn]

/-- Witness of C5: a signal, the shutdown, the listener closing normally. -/
theorem ListenAndServe_returns_listener_error_witness :
    ListenAndServe [Event.notify Signal.SIGTERM, Event.recvSignal,
        Event.serveReturns (some http.ErrServerClosed), Event.shutdownReturns none] = some none ∧
      ∃ e, Event.serveReturns e ∈ [Event.notify Signal.SIGTERM, Event.recvSignal,
          Event.serveReturns (some http.ErrServerClosed), Event.shutdownReturns none] ∧
        (isNormalShutdown e = true → (none : Option GoError) = none) ∧
        (isNormalShutdown e = false → none = e) :=
  ⟨by decide,
    (ListenAndServe_returns_listener_error _ _ (by decide)).1.imp
      (fun _ hx => ⟨hx.1, hx.2.2.2.1, hx.2.2.2.2.1⟩)⟩

/-- C6, counterexample: `srv.Shutdown` returns a non-nil error and
`ListenAndServe` returns nil. -/
theorem shutdown_error_counterexample :
    Event.shutdownReturns (some (GoError.errorf "close tcp [::]:8000: use of closed network connection")) ∈
        [Event.notify Signal.Interrupt, Event.recvSignal,
          Event.serveReturns (some http.ErrServerClosed),
          Event.shutdownReturns
            (some (GoError.errorf "close tcp [::]:8000: use of closed network connection"))] ∧
      ListenAndServe
        [Event.notify Signal.Interrupt, Event.recvSignal,
          Event.serveReturns (some http.ErrServerClosed),
          Event.shutdownReturns
            (some (GoError.errorf "close tcp [::]:8000: use of closed network connection"))] =
        some none := by
  decide

/-- C6, amended: when `srv.Shutdown` returns a non-nil error and
`ListenAndServe` returns, the failure is written to the log at error level as
`graceful shutdown errored: <error>`, and the return value is decided by the
error `e` of the listening task alone: nil when `isNormalShutdown e`, else `e`. -/
theorem ListenAndServe_shutdown_error_logged (evs : List Event) (r : Option GoError)
    (err : GoError) (h : ListenAndServe evs = some r)
    (hmem : Event.shutdownReturns (some err) ∈ evs) :
    ∃ s e, run LSState.init evs = some s ∧
      { level := "error", msg := "graceful shutdown errored: " ++ err.Error } ∈ s.log ∧
      Event.serveReturns e ∈ evs ∧
      r = if isNormalShutdown e then none else e := by
  obtain ⟨s, hrun, hret⟩ := ListenAndServe_some evs r h
  obtain ⟨_, hl, hr⟩ := returnValue_some s r hret
  have hd : s.listenTask ≠ ListenTask.serving := by simp [hl]
  obtain ⟨m1, _⟩ := run_listener_error evs LSState.init s hrun rfl hd
  exact ⟨s, s.serverError, hrun, run_shutdown_error_logged evs _ s err hrun hmem, m1, hr⟩

/-- Witness of C6, amended: the schedule of the counterexample. -/
theorem ListenAndServe_shutdown_error_logged_witness :
    ∃ s e, run LSState.init
        [Event.notify Signal.Interrupt, Event.recvSignal,
          Event.serveReturns (some http.ErrServerClosed),
          Event.shutdownReturns
            (some (GoError.errorf "close tcp [::]:8000: use of closed network connection"))] =
          some s ∧
      { level := "error", msg := "graceful shutdown errored: " ++
          (GoError.errorf "close tcp [::]:8000: use of closed network connection").Error } ∈ s.log ∧
      Event.serveReturns e ∈
        [Event.notify Signal.Interrupt, Event.recvSignal,
          Event.serveReturns (some http.ErrServerClosed),
          Event.shutdownReturns
            (some (GoError.errorf "close tcp [::]:8000: use of closed network connection"))] ∧
      (none : Option GoError) = if isNormalShutdown e then none else e :=
  ListenAndServe_shutdown_error_logged _ none _ (by decide) (by decide)

end server

namespace server

theorem step_no_notify (s s1 : LSState) (ev : Event) (h : step s ev = some s1)
    (hev : ∀ sig, ev ≠ Event.notify sig)
    (hs : s.signals = none ∨ s.signals = some none) :
    (s1.signals = none ∨ s1.signals = some none) ∧ s1.shutdownCalls = s.shutdownCalls := by
  obtain ⟨sg, st, lt, se, sc, lg⟩ := s
  cases ev <;> cases st <;> cases lt <;> rcases sg with _ | _ | _ | _ <;>
    simp [step, initiateShutdown] at h hs hev ⊢ <;>
    first
      | (subst h; simp)
      | (rename_i err; cases err <;> simp at h <;> subst h <;> simp)
      | (split at h <;> simp at h <;> subst h <;> simp)

theorem run_no_notify (evs : List Event) (s s2 : LSState) (h : run s evs = some s2)
    (hev : ∀ sig, Event.notify sig ∉ evs)
    (hs : s.signals = none ∨ s.signals = some none) :
    s2.shutdownCalls = s.shutdownCalls := by
  induction evs generalizing s with
  | nil =>
      simp only [run, Option.some.injEq] at h
      subst h
      rfl
  | cons ev evs ih =>
      obtain ⟨s1, h1, h2⟩ := run_cons s s2 ev evs h
      have hev1 : ∀ sig, ev ≠ Event.notify sig := by
        intro sig heq
        exact hev sig (by simp [heq])
      have hev2 : ∀ sig, Event.notify sig ∉ evs := by
        intro sig hin
        exact hev sig (List.mem_cons_of_mem _ hin)
      obtain ⟨a, b⟩ := step_no_notify s s1 ev h1 hev1 hs
      exact (ih s1 h2 hev2 a).trans b

/-- C8: after any sequence of `updateFn` calls on the gate made by
`CreateAtomicHandler(initialValue)`, the handler answers by the value stored
last (the initial value when there was no call): status 200 with body `OK` when
it is true, status 503 with the text `Service Unavailable` and a newline, as
`http.Error` writes it, when it is false. The scenario false, then true, then
false again gives 503, 200 `OK`, 503. -/
theorem CreateAtomicHandler_answers_last_value (initialValue : Bool) (updates : List Bool) :
    (∃ w, handler (updates.foldl updateFn (CreateAtomicHandler initialValue)) NewRecorder =
        Outcome.returned w ∧
      (updates.getLast?.getD initialValue = true → w.Code = 200 ∧ w.body = "OK") ∧
      (updates.getLast?.getD initialValue = false →
        w.Code = 503 ∧ w.body = "Service Unavailable\n" ∧
          w.body = http.StatusText 503 ++ "\n")) ∧
    ((handler (CreateAtomicHandler false) NewRecorder =
        Outcome.returned
          { header := [("X-Content-Type-Options", "nosniff"),
              ("Content-Type", "text/plain; charset=utf-8")],
            status := some 503, body := "Service Unavailable\n" }) ∧
      (handler (updateFn (CreateAtomicHandler false) true) NewRecorder =
        Outcome.returned { header := [], status := some 200, body := "OK" }) ∧
      (handler (updateFn (updateFn (CreateAtomicHandler false) true) false) NewRecorder =
        Outcome.returned
          { header := [("X-Content-Type-Options", "nosniff"),
              ("Content-Type", "text/plain; charset=utf-8")],
            status := some 503, body := "Service Unavailable\n" })) := by
  refine ⟨?_, by decide⟩
  have hcell : updates.foldl updateFn (CreateAtomicHandler initialValue) =
      AtomicValue.mk (some (updates.getLast?.getD initialValue)) :=
    handler_after_updates updates initialValue
  rw [hcell]
  cases hv : updates.getLast?.getD initialValue
  · exact ⟨_, rfl, by simp, fun _ => by decide⟩
  · exact ⟨_, rfl, fun _ => by decide, by simp⟩

end server

/-! ## Theorems: package `apiclient` -/

namespace apiclient

theorem retryingClient_accepts (m : Int) (hc : HTTPClient) (resp : Response) :
    (retryingClient m hc).accepts { resp := some resp, err := none } =
      Outcome.returned (decide (resp.StatusCode < 500)) := by
  by_cases h : resp.StatusCode = 429 <;>
    simp [PesterClient.accepts, retryingClient, NewExtendedClient, h]

theorem retryingClient_log (m : Int) (hc : HTTPClient) (e : ErrEntry) (w : World) :
    (retryingClient m hc).log e w = createLogHook m e w := by
  simp [PesterClient.log, retryingClient, NewExtendedClient]

theorem createLogHook_frame (m : Int) (e : ErrEntry) (w : World) :
    (createLogHook m e w).requestCount = w.requestCount ∧
      (createLogHook m e w).logOutput = w.logOutput ∧
      (createLogHook m e w).httpClientNewConnCounter = w.httpClientNewConnCounter ∧
      (createLogHook m e w).httpClientReusedConnCounter = w.httpClientReusedConnCounter ∧
      (createLogHook m e w).httpClientConnPrepHistogram = w.httpClientConnPrepHistogram := by
  unfold createLogHook
  split <;> simp

theorem createLogHook_blank_of_lt (m : Int) (e : ErrEntry) (w : World) (h : e.Attempt < m) :
    (createLogHook m e w).blank = w.blank ++
      [{ entry := e,
         value := GoError.wrap (e.Err.getD (GoError.errorf "unknown error"))
           ("attempt:" ++ toString e.Attempt ++ " retrying") }] := by
  unfold createLogHook
  cases he : e.Err <;> simp [h]

theorem createLogHook_of_not_lt (m : Int) (e : ErrEntry) (w : World) (h : ¬ e.Attempt < m) :
    createLogHook m e w = w := by
  unfold createLogHook
  simp [h]

theorem attempts_success (c : PesterClient) (req : Request) (url : String)
    (AL fuel i : Nat) (w : World) (h2 : i ≤ AL)
    (hacc : c.accepts (c.hc.Do w.requestCount req) = Outcome.returned true) :
    c.attempts req url AL (fuel + 1) i w =
      (Outcome.returned (c.hc.Do w.requestCount req),
        { w with requestCount := w.requestCount + 1 }) := by
  rw [PesterClient.attempts]
  simp [h2, hacc]

theorem attempts_last (c : PesterClient) (req : Request) (url : String)
    (AL fuel i : Nat) (w : World) (h2 : i = AL)
    (hacc : c.accepts (c.hc.Do w.requestCount req) = Outcome.returned false) :
    c.attempts req url AL (fuel + 1) i w =
      (Outcome.returned (c.hc.Do w.requestCount req),
        c.log { Method := "Do", URL := url, Verb := req.Method, Request := 0,
                Retry := (i : Int) + 1, Attempt := (i : Int),
                Err := (c.hc.Do w.requestCount req).err }
          { w with requestCount := w.requestCount + 1 }) := by
  rw [PesterClient.attempts]
  simp [h2, hacc]

theorem attempts_retry (c : PesterClient) (req : Request) (url : String)
    (AL fuel i : Nat) (w w2 : World) (h2 : i < AL) (hctx : req.ctx.err = none)
    (hacc : c.accepts (c.hc.Do w.requestCount req) = Outcome.returned false)
    (hw2 : c.log { Method := "Do", URL := url, Verb := req.Method, Request := 0,
                   Retry := (i : Int) + 1, Attempt := (i : Int),
                   Err := (c.hc.Do w.requestCount req).err }
            { w with requestCount := w.requestCount + 1 } = w2) :
    c.attempts req url AL (fuel + 1) i w =
      c.attempts req url AL fuel (i + 1) { w2 with backoffs := w2.backoffs ++ [i] } := by
  rw [PesterClient.attempts]
  have h3 : i ≤ AL := Nat.le_of_lt h2
  have h4 : i ≠ AL := Nat.ne_of_lt h2
  subst hw2
  simp [h3, h4, hacc, hctx]

theorem attempts_spec (m : Int) (hc : HTTPClient) (k : Nat) (hfs : FailsFirst k hc)
    (req : Request) (url : String) (hctx : req.ctx.err = none) (AL : Nat)
    (hAL : (m ≤ 0 ∧ AL = 1) ∨ (0 < m ∧ (AL : Int) = m)) :
    ∀ (fuel i : Nat) (w : World), 1 ≤ i → i ≤ AL → AL + 1 ≤ fuel + i →
      w.requestCount + 1 = i → i ≤ k + 1 →
      ((retryingClient m hc).attempts req url AL fuel i w).1 =
          Outcome.returned (hc.Do (min k (AL - 1)) req) ∧
        ((retryingClient m hc).attempts req url AL fuel i w).2.requestCount =
          min k (AL - 1) + 1 ∧
        ((retryingClient m hc).attempts req url AL fuel i w).2.blank =
          w.blank ++ (List.range' i (min k (AL - 1) + 1 - i)).map (reported url req.Method) ∧
        ((retryingClient m hc).attempts req url AL fuel i w).2.logOutput = w.logOutput := by
  intro fuel
  induction fuel with
  | zero =>
      intro i w h1 h2 h3 h4 h5
      omega
  | succ fuel ih =>
      intro i w h1 h2 h3 h4 h5
      obtain ⟨resp, hr, hst⟩ := hfs w.requestCount req
      have hhc : (retryingClient m hc).hc = hc := rfl
      by_cases hk : w.requestCount < k
      · have h500 : resp.StatusCode = 500 := by simpa [hk] using hst
        have hacc : (retryingClient m hc).accepts ((retryingClient m hc).hc.Do w.requestCount req) =
            Outcome.returned false := by
          rw [hhc, hr, retryingClient_accepts, h500]
          rfl
        by_cases hi : i = AL
        · rw [attempts_last _ _ _ _ _ _ _ hi hacc, retryingClient_log]
          have hnot : ¬ ((i : Int) < m) := by omega
          rw [createLogHook_of_not_lt m _ _ hnot]
          have hmin : min k (AL - 1) = w.requestCount := by omega
          have hlen : min k (AL - 1) + 1 - i = 0 := by omega
          refine ⟨?_, ?_, ?_, ?_⟩
          · simp [hmin, hhc]
          · simp [hmin]
          · simp [hlen]
          · simp
        · have hlt : i < AL := by omega
          have hm : (i : Int) < m := by omega
          obtain ⟨f1, f2, _, _, _⟩ := createLogHook_frame m
            { Method := "Do", URL := url, Verb := req.Method, Request := 0,
              Retry := (i : Int) + 1, Attempt := (i : Int),
              Err := ((retryingClient m hc).hc.Do w.requestCount req).err }
            { w with requestCount := w.requestCount + 1 }
          have hb := createLogHook_blank_of_lt m
            { Method := "Do", URL := url, Verb := req.Method, Request := 0,
              Retry := (i : Int) + 1, Attempt := (i : Int),
              Err := ((retryingClient m hc).hc.Do w.requestCount req).err }
            { w with requestCount := w.requestCount + 1 } hm
          rw [attempts_retry _ _ _ _ _ _ _ _ hlt hctx hacc (retryingClient_log m hc _ _)]
          obtain ⟨r1, r2, r3, r4⟩ := ih (i + 1)
            { (createLogHook m
                { Method := "Do", URL := url, Verb := req.Method, Request := 0,
                  Retry := (i : Int) + 1, Attempt := (i : Int),
                  Err := ((retryingClient m hc).hc.Do w.requestCount req).err }
                { w with requestCount := w.requestCount + 1 }) with
              backoffs := (createLogHook m
                { Method := "Do", URL := url, Verb := req.Method, Request := 0,
                  Retry := (i : Int) + 1, Attempt := (i : Int),
                  Err := ((retryingClient m hc).hc.Do w.requestCount req).err }
                { w with requestCount := w.requestCount + 1 }).backoffs ++ [i] }
            (by omega) (by omega) (by omega)
            (by simp only [f1]; omega) (by omega)
          refine ⟨r1, r2, ?_, ?_⟩
          · rw [r3]
            simp only [hb]
            have hlen : min k (AL - 1) + 1 - i = (min k (AL - 1) + 1 - (i + 1)) + 1 := by omega
            rw [hlen, List.range'_succ]
            simp [hhc, hr, reported]
          · rw [r4]
            simp only [f2]
      · have h200 : resp.StatusCode = 200 := by simpa [hk] using hst
        have hacc : (retryingClient m hc).accepts ((retryingClient m hc).hc.Do w.requestCount req) =
            Outcome.returned true := by
          rw [hhc, hr, retryingClient_accepts, h200]
          rfl
        rw [attempts_success _ _ _ _ _ _ _ h2 hacc]
        have hmin : min k (AL - 1) = w.requestCount := by omega
        have hlen : min k (AL - 1) + 1 - i = 0 := by omega
        refine ⟨?_, ?_, ?_, ?_⟩
        · simp [hmin, hhc]
        · simp [hmin]
        · simp [hlen]
        · simp

end apiclient

namespace apiclient

theorem AttemptLimit_cases (m : Int) (hc : HTTPClient) :
    (retryingClient m hc).AttemptLimit = max m.toNat 1 ∧
      ((m ≤ 0 ∧ (retryingClient m hc).AttemptLimit = 1) ∨
        (0 < m ∧ ((retryingClient m hc).AttemptLimit : Int) = m)) := by
  have h : (retryingClient m hc).AttemptLimit = if m ≤ 0 then 1 else m.toNat := rfl
  rw [h]
  split <;> constructor <;> omega

theorem testServer_FailsFirst (k : Nat) : FailsFirst k (testServer k) := by
  intro n req
  by_cases h : n < k
  · have h2 : n + 1 ≤ k := h
    exact ⟨{ StatusCode := 500, Body := "" }, by simp [testServer, h2], by simp [h]⟩
  · have h2 : ¬ n + 1 ≤ k := h
    exact ⟨{ StatusCode := 200, Body := "hello" }, by simp [testServer, h2], by simp [h]⟩

theorem retryingClient_Do_spec (m : Int) (hc : HTTPClient) (k : Nat) (hfs : FailsFirst k hc)
    (req : Request) (url : String) (w : World) (hurl : req.URL = some url)
    (hctx : req.ctx.err = none) (hw : w.requestCount = 0) :
    ((retryingClient m hc).Do req w).1 =
        Outcome.returned (hc.Do (min k (max m.toNat 1 - 1)) req) ∧
      ((retryingClient m hc).Do req w).2.requestCount = min k (max m.toNat 1 - 1) + 1 ∧
      ((retryingClient m hc).Do req w).2.blank =
        w.blank ++ (List.range' 1 (min k (max m.toNat 1 - 1))).map (reported url req.Method) ∧
      ((retryingClient m hc).Do req w).2.logOutput = w.logOutput := by
  obtain ⟨hAL, hcases⟩ := AttemptLimit_cases m hc
  have hdo : (retryingClient m hc).Do req w =
      (retryingClient m hc).attempts req url (retryingClient m hc).AttemptLimit
        (retryingClient m hc).AttemptLimit 1 w := by
    simp [PesterClient.Do, hurl]
  have h1 : 1 ≤ (retryingClient m hc).AttemptLimit := by omega
  have := attempts_spec m hc k hfs req url hctx (retryingClient m hc).AttemptLimit hcases
    (retryingClient m hc).AttemptLimit 1 w (le_refl 1) h1 (by omega) (by omega) (by omega)
  rw [hdo, ← hAL]
  simpa using this

theorem InstrumentHTTPRequest_eq (req : Request) (w : World) :
    InstrumentHTTPRequest req w =
      ((req.WithContext context.Background, none),
        { w with
          httpClientReusedConnCounter := w.httpClientReusedConnCounter + 1,
          httpClientConnPrepHistogram := w.httpClientConnPrepHistogram ++ [0] }) := rfl

theorem InstrumentedHttpClient_Do_world (ihc : InstrumentedHttpClient) (req : Request)
    (w : World) :
    (ihc.Do req w).2 =
      (ihc.client (InstrumentHTTPRequest req w).1.1 (InstrumentHTTPRequest req w).2).2 := by
  simp only [InstrumentedHttpClient.Do, InstrumentHTTPRequest_eq]
  split <;> simp_all

theorem InstrumentedHttpClient_Do_never_returns (ihc : InstrumentedHttpClient) (req : Request)
    (w : World) (r : Result) : (ihc.Do req w).1 ≠ Outcome.returned r := by
  simp only [InstrumentedHttpClient.Do, InstrumentHTTPRequest_eq]
  split <;> simp

theorem InstrumentedHttpClient_Do_panics (ihc : InstrumentedHttpClient) (req : Request)
    (w : World) (r : Result)
    (h : (ihc.client (InstrumentHTTPRequest req w).1.1 (InstrumentHTTPRequest req w).2).1 =
      Outcome.returned r) :
    (ihc.Do req w).1 =
      Outcome.panicked "invalid memory address or nil pointer dereference" := by
  simp only [InstrumentHTTPRequest_eq] at h
  simp only [InstrumentedHttpClient.Do, InstrumentHTTPRequest_eq]
  split
  · rename_i heq
    rw [heq] at h
    simp at h
  · rfl

end apiclient

namespace apiclient

theorem retryingClient_accepts_failed (m : Int) (hc : HTTPClient) (r : Result)
    (h : r.failed = true) : (retryingClient m hc).accepts r = Outcome.returned false := by
  obtain ⟨resp, err⟩ := r
  cases err with
  | some e => simp [PesterClient.accepts]
  | none =>
      cases resp with
      | none => simp [Result.failed] at h
      | some resp =>
          have h5 : 500 ≤ resp.StatusCode := by simpa [Result.failed] using h
          rw [retryingClient_accepts]
          have : ¬ resp.StatusCode < 500 := by omega
          simp [this]

theorem retryingClient_accepts_succeeded (m : Int) (hc : HTTPClient) (r : Result)
    (h : r.succeeded = true) : (retryingClient m hc).accepts r = Outcome.returned true := by
  obtain ⟨resp, err⟩ := r
  cases err with
  | some e => simp [Result.succeeded] at h
  | none =>
      cases resp with
      | none => simp [Result.succeeded] at h
      | some resp =>
          have h5 : resp.StatusCode < 500 := by simpa [Result.succeeded] using h
          rw [retryingClient_accepts]
          simp [h5]

end apiclient

namespace apiclient

theorem attempts_run (m : Int) (hc : HTTPClient) (k : Nat) (req : Request) (url : String)
    (hctx : req.ctx.err = none) (AL : Nat)
    (hAL : (m ≤ 0 ∧ AL = 1) ∨ (0 < m ∧ (AL : Int) = m))
    (hfail : ∀ n, n < k → (hc.Do n req).failed = true)
    (hok : k < AL → (hc.Do k req).succeeded = true) :
    ∀ (fuel i : Nat) (w : World), 1 ≤ i → i ≤ AL → AL + 1 ≤ fuel + i →
      w.requestCount + 1 = i → i ≤ k + 1 →
      ((retryingClient m hc).attempts req url AL fuel i w).1 =
          Outcome.returned (hc.Do (min k (AL - 1)) req) ∧
        ((retryingClient m hc).attempts req url AL fuel i w).2.requestCount =
          min k (AL - 1) + 1 ∧
        ((retryingClient m hc).attempts req url AL fuel i w).2.blank =
          w.blank ++ (List.range' i (min k (AL - 1) + 1 - i)).map
            (fun j => reportedWith url req.Method j (hc.Do (j - 1) req).err) := by
  intro fuel
  induction fuel with
  | zero =>
      intro i w h1 h2 h3 h4 h5
      omega
  | succ fuel ih =>
      intro i w h1 h2 h3 h4 h5
      have hhc : (retryingClient m hc).hc = hc := rfl
      have hi1 : i - 1 = w.requestCount := by omega
      by_cases hk : w.requestCount < k
      · have hacc : (retryingClient m hc).accepts ((retryingClient m hc).hc.Do w.requestCount req) =
            Outcome.returned false := by
          rw [hhc]
          exact retryingClient_accepts_failed m hc _ (hfail _ hk)
        by_cases hi : i = AL
        · rw [attempts_last _ _ _ _ _ _ _ hi hacc, retryingClient_log]
          have hnot : ¬ ((i : Int) < m) := by omega
          rw [createLogHook_of_not_lt m _ _ hnot]
          have hmin : min k (AL - 1) = w.requestCount := by omega
          have hlen : min k (AL - 1) + 1 - i = 0 := by omega
          refine ⟨?_, ?_, ?_⟩
          · simp [hmin, hhc]
          · simp [hmin]
          · simp [hlen]
        · have hlt : i < AL := by omega
          have hm : (i : Int) < m := by omega
          obtain ⟨f1, f2, _, _, _⟩ := createLogHook_frame m
            { Method := "Do", URL := url, Verb := req.Method, Request := 0,
              Retry := (i : Int) + 1, Attempt := (i : Int),
              Err := ((retryingClient m hc).hc.Do w.requestCount req).err }
            { w with requestCount := w.requestCount + 1 }
          have hb := createLogHook_blank_of_lt m
            { Method := "Do", URL := url, Verb := req.Method, Request := 0,
              Retry := (i : Int) + 1, Attempt := (i : Int),
              Err := ((retryingClient m hc).hc.Do w.requestCount req).err }
            { w with requestCount := w.requestCount + 1 } hm
          rw [attempts_retry _ _ _ _ _ _ _ _ hlt hctx hacc (retryingClient_log m hc _ _)]
          obtain ⟨r1, r2, r3⟩ := ih (i + 1)
            { (createLogHook m
                { Method := "Do", URL := url, Verb := req.Method, Request := 0,
                  Retry := (i : Int) + 1, Attempt := (i : Int),
                  Err := ((retryingClient m hc).hc.Do w.requestCount req).err }
                { w with requestCount := w.requestCount + 1 }) with
              backoffs := (createLogHook m
                { Method := "Do", URL := url, Verb := req.Method, Request := 0,
                  Retry := (i : Int) + 1, Attempt := (i : Int),
                  Err := ((retryingClient m hc).hc.Do w.requestCount req).err }
                { w with requestCount := w.requestCount + 1 }).backoffs ++ [i] }
            (by omega) (by omega) (by omega)
            (by simp only [f1]; omega) (by omega)
          refine ⟨r1, r2, ?_⟩
          rw [r3]
          simp only [hb]
          have hlen : min k (AL - 1) + 1 - i = (min k (AL - 1) + 1 - (i + 1)) + 1 := by omega
          rw [hlen, List.range'_succ]
          simp [hhc, hi1, reportedWith]
      · have hkeq : w.requestCount = k := by omega
        have hacc : (retryingClient m hc).accepts ((retryingClient m hc).hc.Do w.requestCount req) =
            Outcome.returned true := by
          rw [hhc, hkeq]
          exact retryingClient_accepts_succeeded m hc _ (hok (by omega))
        rw [attempts_success _ _ _ _ _ _ _ h2 hacc]
        have hmin : min k (AL - 1) = w.requestCount := by omega
        have hlen : min k (AL - 1) + 1 - i = 0 := by omega
        refine ⟨?_, ?_, ?_⟩
        · simp [hmin, hhc]
        · simp [hmin]
        · simp [hlen]

end apiclient

namespace apiclient

theorem retryingClient_Do_run (m : Int) (hc : HTTPClient) (k : Nat)
    (req : Request) (url : String) (w : World) (hurl : req.URL = some url)
    (hctx : req.ctx.err = none) (hw : w.requestCount = 0)
    (hfail : ∀ n, n < k → (hc.Do n req).failed = true)
    (hok : k < max m.toNat 1 → (hc.Do k req).succeeded = true) :
    ((retryingClient m hc).Do req w).1 =
        Outcome.returned (hc.Do (min k (max m.toNat 1 - 1)) req) ∧
      ((retryingClient m hc).Do req w).2.requestCount = min k (max m.toNat 1 - 1) + 1 ∧
      ((retryingClient m hc).Do req w).2.blank =
        w.blank ++ (List.range' 1 (min k (max m.toNat 1 - 1))).map
          (fun j => reportedWith url req.Method j (hc.Do (j - 1) req).err) := by
  obtain ⟨hAL, hcases⟩ := AttemptLimit_cases m hc
  have hdo : (retryingClient m hc).Do req w =
      (retryingClient m hc).attempts req url (retryingClient m hc).AttemptLimit
        (retryingClient m hc).AttemptLimit 1 w := by
    simp [PesterClient.Do, hurl]
  have h1 : 1 ≤ (retryingClient m hc).AttemptLimit := by omega
  have := attempts_run m hc k req url hctx (retryingClient m hc).AttemptLimit hcases hfail
    (by rw [hAL]; exact hok)
    (retryingClient m hc).AttemptLimit 1 w (le_refl 1) h1 (by omega) (by omega) (by omega)
  rw [hdo, ← hAL]
  simpa using this

end apiclient

namespace apiclient

/-- C1, counterexample: with `maxAttempts = 2` against the server that fails
its first two requests, the retrying client gets the 500 response of the second
attempt, and `Do` does not return the response 200 `hello`. -/
theorem two_attempts_counterexample :
    ((NewExtendedHTTPClient 2 (testServer 2)).client
        (InstrumentHTTPRequest testRequest World.init).1.1
        (InstrumentHTTPRequest testRequest World.init).2).1 =
        Outcome.returned { resp := some { StatusCode := 500, Body := "" }, err := none } ∧
      ((NewExtendedHTTPClient 2 (testServer 2)).Do testRequest World.init).1 ≠
        Outcome.returned { resp := some { StatusCode := 200, Body := "hello" }, err := none } := by
  decide

/-- C1, amended: when the transport fails with status 500 on exactly its first
`k` calls and succeeds afterwards, the retrying client that
`NewExtendedHTTPClient(maxAttempts, hc)` builds obtains, for the request that
`Do` hands to it, the successful response if and only if
`k < max(maxAttempts, 1)`: `maxAttempts` is the total number of attempts and one
attempt is always made. Otherwise it obtains the response of the last attempt,
which failed. The error is nil in both cases. -/
theorem NewExtendedHTTPClient_retry_result (maxAttempts : Int) (k : Nat) (hc : HTTPClient)
    (req : Request) (url : String) (w : World) (hfs : FailsFirst k hc)
    (hurl : req.URL = some url) (hw : w.requestCount = 0) :
    (k < max maxAttempts.toNat 1 →
      ((NewExtendedHTTPClient maxAttempts hc).client (InstrumentHTTPRequest req w).1.1
          (InstrumentHTTPRequest req w).2).1 =
        Outcome.returned (hc.Do k (InstrumentHTTPRequest req w).1.1)) ∧
    (max maxAttempts.toNat 1 ≤ k →
      ((NewExtendedHTTPClient maxAttempts hc).client (InstrumentHTTPRequest req w).1.1
          (InstrumentHTTPRequest req w).2).1 =
        Outcome.returned
          (hc.Do (max maxAttempts.toNat 1 - 1) (InstrumentHTTPRequest req w).1.1)) ∧
    ∃ resp,
      ((NewExtendedHTTPClient maxAttempts hc).client (InstrumentHTTPRequest req w).1.1
          (InstrumentHTTPRequest req w).2).1 =
        Outcome.returned { resp := some resp, err := none } ∧
      (resp.StatusCode = 200 ↔ k < max maxAttempts.toNat 1) ∧
      (resp.StatusCode = 500 ↔ max maxAttempts.toNat 1 ≤ k) := by
  have hspec := (retryingClient_Do_spec maxAttempts hc k hfs
    (InstrumentHTTPRequest req w).1.1 url (InstrumentHTTPRequest req w).2
    (by simpa [InstrumentHTTPRequest_eq, Request.WithContext] using hurl)
    (by simp [InstrumentHTTPRequest_eq, Request.WithContext, context.Background])
    (by simpa [InstrumentHTTPRequest_eq] using hw)).1
  have hcl : (NewExtendedHTTPClient maxAttempts hc).client = (retryingClient maxAttempts hc).Do :=
    rfl
  rw [hcl, hspec]
  refine ⟨?_, ?_, ?_⟩
  · intro hk
    have : min k (max maxAttempts.toNat 1 - 1) = k := by omega
    rw [this]
  · intro hk
    have : min k (max maxAttempts.toNat 1 - 1) = max maxAttempts.toNat 1 - 1 := by omega
    rw [this]
  · obtain ⟨resp, hr, hst⟩ := hfs (min k (max maxAttempts.toNat 1 - 1))
      (InstrumentHTTPRequest req w).1.1
    refine ⟨resp, by rw [hr], ?_, ?_⟩
    · rw [hst]
      by_cases hlt : min k (max maxAttempts.toNat 1 - 1) < k
      · simp only [hlt, if_true]
        constructor
        · intro h
          norm_num at h
        · intro h
          omega
      · simp only [hlt, if_false, true_iff]
        omega
    · rw [hst]
      by_cases hlt : min k (max maxAttempts.toNat 1 - 1) < k
      · simp only [hlt, if_true, true_iff]
        omega
      · simp only [hlt, if_false]
        constructor
        · intro h
          norm_num at h
        · intro h
          omega

/-- Witness of C1, amended: three attempts against the server that fails twice. -/
theorem NewExtendedHTTPClient_retry_result_witness :
    FailsFirst 2 (testServer 2) ∧
      ((NewExtendedHTTPClient 3 (testServer 2)).client
          (InstrumentHTTPRequest testRequest World.init).1.1
          (InstrumentHTTPRequest testRequest World.init).2).1 =
        Outcome.returned { resp := some { StatusCode := 200, Body := "hello" }, err := none } :=
  ⟨testServer_FailsFirst 2,
    (NewExtendedHTTPClient_retry_result 3 2 (testServer 2) testRequest "http://127.0.0.1:8080"
      World.init (testServer_FailsFirst 2) rfl rfl).1 (by decide)⟩

/-- C2, evaluation at the rows of `Test_NewExtendedHTTPClient` (the server fails
its first two requests): for `maxRetries` 3 and 4 the retrying client obtains
200 `hello`, for -1, 0, 1 and 2 it obtains 500 with an empty body, each with a
nil error, but in every row `Do` panics when the deferred nil `requestDone`
is called and so returns nothing. -/
theorem NewExtendedHTTPClient_Do_panics_on_test_rows :
    (∀ maxRetries ∈ [(3 : Int), 4],
      ((NewExtendedHTTPClient maxRetries (testServer 2)).client
          (InstrumentHTTPRequest testRequest World.init).1.1
          (InstrumentHTTPRequest testRequest World.init).2).1 =
        Outcome.returned { resp := some { StatusCode := 200, Body := "hello" }, err := none } ∧
      ((NewExtendedHTTPClient maxRetries (testServer 2)).Do testRequest World.init).1 =
        Outcome.panicked "invalid memory address or nil pointer dereference") ∧
    (∀ maxRetries ∈ [(-1 : Int), 0, 1, 2],
      ((NewExtendedHTTPClient maxRetries (testServer 2)).client
          (InstrumentHTTPRequest testRequest World.init).1.1
          (InstrumentHTTPRequest testRequest World.init).2).1 =
        Outcome.returned { resp := some { StatusCode := 500, Body := "" }, err := none } ∧
      ((NewExtendedHTTPClient maxRetries (testServer 2)).Do testRequest World.init).1 =
        Outcome.panicked "invalid memory address or nil pointer dereference") := by
  decide

/-- C3, evaluation: the request that `InstrumentHTTPRequest` returns, which
`InstrumentedHttpClient.Do` hands to the inner client, always carries
`context.Background()`. For the request with a cancelled context it is not the
context of the caller; the retrying client then makes all three attempts,
where the same client given the request with its own context stops after the
first attempt and returns `context.Canceled`. -/
theorem InstrumentHTTPRequest_drops_context :
    (∀ req w, (InstrumentHTTPRequest req w).1.1.ctx = context.Background) ∧
      (InstrumentHTTPRequest canceledRequest World.init).1.1.ctx ≠ canceledRequest.ctx ∧
      ((NewExtendedHTTPClient 3 (testServer 2)).Do canceledRequest World.init).2.requestCount = 3 ∧
      (∃ resp, ((retryingClient 3 (testServer 2)).Do canceledRequest World.init).1 =
        Outcome.returned { resp := resp, err := some context.Canceled }) ∧
      ((retryingClient 3 (testServer 2)).Do canceledRequest World.init).2.requestCount = 1 := by
  refine ⟨fun req w => rfl, by decide, by decide, ⟨some { StatusCode := 500, Body := "" }, ?_⟩,
    by decide⟩
  decide

/-- C4, evaluation: `InstrumentedHttpClient.Do` never returns a result, whatever
the inner client and the request: the deferred call of the nil `requestDone`
panics. With an inner client that returns 200 `hello` at once, `Do` panics
instead of returning that pair. -/
theorem InstrumentedHttpClient_Do_panics_not_returns :
    (∀ (ihc : InstrumentedHttpClient) (req : Request) (w : World) (r : Result),
      (ihc.Do req w).1 ≠ Outcome.returned r) ∧
    (helloClient (InstrumentHTTPRequest testRequest World.init).1.1
        (InstrumentHTTPRequest testRequest World.init).2).1 =
      Outcome.returned { resp := some { StatusCode := 200, Body := "hello" }, err := none } ∧
    ((InstrumentedHttpClient.mk helloClient).Do testRequest World.init).1 =
      Outcome.panicked "invalid memory address or nil pointer dereference" :=
  ⟨InstrumentedHttpClient_Do_never_returns, by decide, by decide⟩

/-- C9, counterexample: with `maxAttempts = 2` and `k = 2` failures the
reporting branch of the hook is reached once, not `min(2, 2) = 2` times. -/
theorem hook_count_counterexample :
    ((NewExtendedHTTPClient 2 (testServer 2)).Do testRequest World.init).2.blank.length = 1 ∧
      ((NewExtendedHTTPClient 2 (testServer 2)).Do testRequest World.init).2.blank.length ≠
        min 2 2 := by
  decide

/-- C9, amended: in one `Do` call whose first `k` attempts fail, each with a
transport error or with a response of status 500 or more, and whose attempt
`k + 1`, if the budget reaches it, succeeds, the reporting branch of the hook
built by `createLogHook(maxAttempts)` is reached exactly
`min(k, maxAttempts - 1)` times (0 times when `maxAttempts` is 0), once for each
of the attempts `1 .. min(k, maxAttempts - 1)` and with the error of that
attempt, nil or not, and never for the final attempt, whose number is the
number of attempts made and whose result the retrying client returns. -/
theorem createLogHook_reports (maxAttempts : Int) (k : Nat) (hc : HTTPClient)
    (req : Request) (url : String) (w : World)
    (hfail : ∀ n, n < k → (hc.Do n (req.WithContext context.Background)).failed = true)
    (hok : k < max maxAttempts.toNat 1 →
      (hc.Do k (req.WithContext context.Background)).succeeded = true)
    (hurl : req.URL = some url) (hw : w.requestCount = 0) :
    ((NewExtendedHTTPClient maxAttempts hc).Do req w).2.blank =
        w.blank ++ (List.range' 1 (min k (maxAttempts.toNat - 1))).map
          (fun j => reportedWith url req.Method j
            (hc.Do (j - 1) (req.WithContext context.Background)).err) ∧
      ((NewExtendedHTTPClient maxAttempts hc).Do req w).2.blank.length =
        w.blank.length + min k (maxAttempts.toNat - 1) ∧
      ((NewExtendedHTTPClient maxAttempts hc).Do req w).2.requestCount =
        min k (max maxAttempts.toNat 1 - 1) + 1 ∧
      ((NewExtendedHTTPClient maxAttempts hc).client
          (InstrumentHTTPRequest req w).1.1 (InstrumentHTTPRequest req w).2).1 =
        Outcome.returned
          (hc.Do (min k (max maxAttempts.toNat 1 - 1)) (req.WithContext context.Background)) ∧
      ∀ b ∈ (List.range' 1 (min k (maxAttempts.toNat - 1))).map
          (fun j => reportedWith url req.Method j
            (hc.Do (j - 1) (req.WithContext context.Background)).err),
        1 ≤ b.entry.Attempt ∧
        b.entry.Attempt <
          (((NewExtendedHTTPClient maxAttempts hc).Do req w).2.requestCount : Int) ∧
        b.entry.Attempt < maxAttempts ∧
        b.entry.Err =
          (hc.Do (b.entry.Attempt.toNat - 1) (req.WithContext context.Background)).err ∧
        b.value = GoError.wrap (b.entry.Err.getD (GoError.errorf "unknown error"))
          ("attempt:" ++ toString b.entry.Attempt ++ " retrying") := by
  have hreq : (InstrumentHTTPRequest req w).1.1 = req.WithContext context.Background := rfl
  obtain ⟨h1, h2, h3⟩ := retryingClient_Do_run maxAttempts hc k
    (InstrumentHTTPRequest req w).1.1 url (InstrumentHTTPRequest req w).2
    (by simpa [InstrumentHTTPRequest_eq, Request.WithContext] using hurl)
    (by simp [InstrumentHTTPRequest_eq, Request.WithContext, context.Background])
    (by simpa [InstrumentHTTPRequest_eq] using hw)
    (by rw [hreq]; exact hfail) (by rw [hreq]; exact hok)
  have hcl : (NewExtendedHTTPClient maxAttempts hc).client = (retryingClient maxAttempts hc).Do :=
    rfl
  have hsub : max maxAttempts.toNat 1 - 1 = maxAttempts.toNat - 1 := by omega
  rw [InstrumentedHttpClient_Do_world, hcl, h1, h2, h3, hsub]
  refine ⟨?_, ?_, rfl, ?_, ?_⟩
  · simp [InstrumentHTTPRequest_eq, Request.WithContext]
  · simp [InstrumentHTTPRequest_eq]
  · rw [hreq]
  · intro b hb
    obtain ⟨j, hj, rfl⟩ := List.mem_map.mp hb
    have hj2 := List.mem_range'_1.mp hj
    dsimp only [reportedWith]
    refine ⟨by omega, by omega, by omega, ?_, rfl⟩
    simp

/-- Witness of C9, amended: four attempts against the transport whose first
request ends with the error `connection refused`, whose next two are answered
with status 503 and 502 and whose fourth succeeds. The branch is reached three
times, first with the transport error and then twice with a nil error. -/
theorem createLogHook_reports_witness :
    (∀ n, n < 3 →
        (flakyServer.Do n (testRequest.WithContext context.Background)).failed = true) ∧
      ((NewExtendedHTTPClient 4 flakyServer).Do testRequest World.init).2.blank.length =
        World.init.blank.length + min 3 ((4 : Int).toNat - 1) ∧
      ((NewExtendedHTTPClient 4 flakyServer).Do testRequest World.init).2.blank.map
          (fun b => b.value.Error) =
        ["attempt:1 retrying: connection refused", "attempt:2 retrying: unknown error",
          "attempt:3 retrying: unknown error"] :=
  ⟨fun n hn => by interval_cases n <;> rfl,
    (createLogHook_reports 4 3 flakyServer testRequest "http://127.0.0.1:8080"
      World.init (fun n hn => by interval_cases n <;> rfl) (fun _ => rfl) rfl rfl).2.1,
    by decide⟩

/-- C10, evaluation: the hook returned by `createLogHook` never changes the
output of the logger. For `maxRetries = 2` and the entry with attempt 1 and
error `myerror`, and for `maxRetries = 3` and attempt 2, the output stays empty;
the text `attempt:<n> retrying: myerror` is only the text of the value that the
branch builds and assigns to the blank identifier. -/
theorem createLogHook_writes_no_record :
    (∀ maxRetries errEntry w, (createLogHook maxRetries errEntry w).logOutput = w.logOutput) ∧
      (createLogHook 2 (testEntry 1) World.init).logOutput = [] ∧
      (createLogHook 2 (testEntry 1) World.init).blank.map (fun b => b.value.Error) =
        ["attempt:1 retrying: myerror"] ∧
      (createLogHook 3 (testEntry 2) World.init).logOutput = [] ∧
      (createLogHook 3 (testEntry 2) World.init).blank.map (fun b => b.value.Error) =
        ["attempt:2 retrying: myerror"] :=
  ⟨fun m e w => (createLogHook_frame m e w).2.1, by decide, by decide, by decide, by decide⟩

end apiclient


namespace server

theorem step_shutdown_inv (s s1 : LSState) (ev : Event) (h : step s ev = some s1)
    (hinv : (s.signalTask = SignalTask.waiting → s.shutdownCalls = []) ∧
      (s.signalTask = SignalTask.inShutdown → s.shutdownCalls = [context.Background]) ∧
      (s.shutdownCalls = [] ∨ s.shutdownCalls = [context.Background])) :
    (s1.signalTask = SignalTask.waiting → s1.shutdownCalls = []) ∧
      (s1.signalTask = SignalTask.inShutdown → s1.shutdownCalls = [context.Background]) ∧
      (s1.shutdownCalls = [] ∨ s1.shutdownCalls = [context.Background]) := by
  obtain ⟨sg, st, lt, se, sc, lg⟩ := s
  cases ev <;> cases st <;> cases lt <;> rcases sg with _ | _ | _ | _ <;>
    simp [step, initiateShutdown] at h hinv ⊢ <;>
    first
      | (subst h; simp_all)
      | (rename_i err; cases err <;> simp at h <;> subst h <;> simp_all)
      | (split at h <;> simp at h <;> subst h <;> simp_all)

theorem run_shutdown_inv (evs : List Event) (s s2 : LSState) (h : run s evs = some s2)
    (hinv : (s.signalTask = SignalTask.waiting → s.shutdownCalls = []) ∧
      (s.signalTask = SignalTask.inShutdown → s.shutdownCalls = [context.Background]) ∧
      (s.shutdownCalls = [] ∨ s.shutdownCalls = [context.Background])) :
    (s2.signalTask = SignalTask.waiting → s2.shutdownCalls = []) ∧
      (s2.signalTask = SignalTask.inShutdown → s2.shutdownCalls = [context.Background]) ∧
      (s2.shutdownCalls = [] ∨ s2.shutdownCalls = [context.Background]) := by
  induction evs generalizing s with
  | nil =>
      simp only [run, Option.some.injEq] at h
      subst h
      exact hinv
  | cons ev evs ih =>
      obtain ⟨s1, h1, h2⟩ := run_cons s s2 ev evs h
      exact ih s1 h2 (step_shutdown_inv s s1 ev h1 hinv)

theorem init_shutdown_inv :
    (LSState.init.signalTask = SignalTask.waiting → LSState.init.shutdownCalls = []) ∧
      (LSState.init.signalTask = SignalTask.inShutdown →
        LSState.init.shutdownCalls = [context.Background]) ∧
      (LSState.init.shutdownCalls = [] ∨ LSState.init.shutdownCalls = [context.Background]) := by
  simp [LSState.init]

theorem step_not_waiting (s s1 : LSState) (ev : Event) (h : step s ev = some s1)
    (hs : s.signalTask ≠ SignalTask.waiting) :
    s1.signalTask ≠ SignalTask.waiting ∧ ev ≠ Event.recvSignal ∧
      s1.shutdownCalls = s.shutdownCalls := by
  obtain ⟨sg, st, lt, se, sc, lg⟩ := s
  cases ev <;> cases st <;> cases lt <;> rcases sg with _ | _ | _ | _ <;>
    simp [step, initiateShutdown] at h hs ⊢ <;>
    first
      | (subst h; simp)
      | (rename_i err; cases err <;> simp at h <;> subst h <;> simp)
      | (split at h <;> simp at h <;> subst h <;> simp)

theorem step_waiting (s s1 : LSState) (ev : Event) (h : step s ev = some s1)
    (hs : s.signalTask = SignalTask.waiting) (hev : ev ≠ Event.recvSignal) :
    s1.signalTask = SignalTask.waiting := by
  obtain ⟨sg, st, lt, se, sc, lg⟩ := s
  cases ev <;> cases st <;> cases lt <;> rcases sg with _ | _ | _ | _ <;>
    simp [step, initiateShutdown] at h hs hev ⊢ <;>
    first
      | (subst h; simp)
      | (split at h <;> simp at h <;> subst h <;> simp)

theorem run_not_waiting (evs : List Event) (s s2 : LSState) (h : run s evs = some s2)
    (hs : s.signalTask ≠ SignalTask.waiting) :
    Event.recvSignal ∉ evs ∧ s2.shutdownCalls = s.shutdownCalls := by
  induction evs generalizing s with
  | nil =>
      simp only [run, Option.some.injEq] at h
      subst h
      simp
  | cons ev evs ih =>
      obtain ⟨s1, h1, h2⟩ := run_cons s s2 ev evs h
      obtain ⟨a, b, c⟩ := step_not_waiting s s1 ev h1 hs
      obtain ⟨d, e⟩ := ih s1 h2 a
      refine ⟨?_, e.trans c⟩
      intro hmem
      rcases List.mem_cons.mp hmem with heq | hin
      · exact b heq.symm
      · exact d hin

theorem run_waiting (evs : List Event) (s s2 : LSState) (h : run s evs = some s2)
    (hs : s.signalTask = SignalTask.waiting) (hno : Event.recvSignal ∉ evs) :
    s2.signalTask = SignalTask.waiting := by
  induction evs generalizing s with
  | nil =>
      simp only [run, Option.some.injEq] at h
      subst h
      exact hs
  | cons ev evs ih =>
      obtain ⟨s1, h1, h2⟩ := run_cons s s2 ev evs h
      have hev : ev ≠ Event.recvSignal := fun heq => hno (by simp [heq])
      exact ih s1 h2 (step_waiting s s1 ev h1 hs hev) (fun hin => hno (List.mem_cons_of_mem _ hin))

theorem run_recv_count (evs : List Event) (s s2 : LSState) (h : run s evs = some s2) :
    evs.count Event.recvSignal ≤ 1 := by
  induction evs generalizing s with
  | nil => simp
  | cons ev evs ih =>
      obtain ⟨s1, h1, h2⟩ := run_cons s s2 ev evs h
      by_cases hev : ev = Event.recvSignal
      · subst hev
        have hs : s.signalTask = SignalTask.waiting := by
          by_contra hne
          exact (step_not_waiting s s1 _ h1 hne).2.1 rfl
        have hs1 : s1.signalTask ≠ SignalTask.waiting := by
          obtain ⟨sg, st, lt, se, sc, lg⟩ := s
          cases st <;> cases lt <;> rcases sg with _ | _ | _ | _ <;>
            simp [step, initiateShutdown] at h1 hs ⊢ <;> subst h1 <;> simp
        have hnot := (run_not_waiting evs s1 s2 h2 hs1).1
        simp [List.count_eq_zero_of_not_mem hnot]
      · have hne : (ev == Event.recvSignal) = false := by simpa using hev
        rw [List.count_cons, hne]
        simpa using ih s1 h2

end server

namespace server

theorem run_shutdown_returned (evs : List Event) (s s2 : LSState) (h : run s evs = some s2)
    (hw : s.signalTask = SignalTask.waiting → s.shutdownCalls = [])
    (hs : s.signalTask ≠ SignalTask.done) (hd : s2.signalTask = SignalTask.done)
    (hc : s2.shutdownCalls ≠ []) : ∃ err, Event.shutdownReturns err ∈ evs := by
  induction evs generalizing s with
  | nil =>
      simp only [run, Option.some.injEq] at h
      subst h
      exact absurd hd hs
  | cons ev evs ih =>
      obtain ⟨s1, h1, h2⟩ := run_cons s s2 ev evs h
      by_cases hev : ∃ err, ev = Event.shutdownReturns err
      · obtain ⟨err, rfl⟩ := hev
        exact ⟨err, by simp⟩
      · have hstep : (s1.signalTask = SignalTask.waiting → s1.shutdownCalls = []) ∧
            (s1.signalTask = SignalTask.done → s1.shutdownCalls = []) := by
          obtain ⟨sg, st, lt, se, sc, lg⟩ := s
          cases ev <;> cases st <;> cases lt <;> rcases sg with _ | _ | _ | _ <;>
            simp [step, initiateShutdown] at h1 hw hs hev ⊢ <;>
            first
              | (subst h1; simp_all)
              | (split at h1 <;> simp at h1 <;> subst h1 <;> simp_all)
        by_cases hd1 : s1.signalTask = SignalTask.done
        · have hne : s1.signalTask ≠ SignalTask.waiting := by simp [hd1]
          have := (run_not_waiting evs s1 s2 h2 hne).2
          rw [this, hstep.2 hd1] at hc
          exact absurd rfl hc
        · obtain ⟨err, herr⟩ := ih s1 h2 hstep.1 hd1
          exact ⟨err, List.mem_cons_of_mem _ herr⟩

/-- C17, counterexample: after SIGTERM the one call of `srv.Shutdown` gets
`context.Background()`, which has no deadline, and while that call has not
returned `ListenAndServe` does not return, although the listener has closed. -/
theorem shutdown_deadline_counterexample :
    (run LSState.init [Event.notify Signal.SIGTERM, Event.recvSignal]).map
        (fun s => s.shutdownCalls) = some [context.Background] ∧
      context.Background.deadline = none ∧
      ListenAndServe [Event.notify Signal.SIGTERM, Event.recvSignal,
        Event.serveReturns (some http.ErrServerClosed)] = none := by
  decide

/-- C17, amended: when a termination signal is received, `ListenAndServe` calls
`srv.Shutdown` with `context.Background()`, a context without deadline that is
never done; every context that `srv.Shutdown` is called with is this one. The
drain is not bounded by `ListenAndServe`: once `srv.Shutdown` was called,
`ListenAndServe` returns only under a schedule in which that call returns. -/
theorem ListenAndServe_shutdown_context (evs : List Event) (s : LSState)
    (h : run LSState.init evs = some s) :
    (∀ ctx ∈ s.shutdownCalls,
      ctx = context.Background ∧ ctx.deadline = none ∧ ctx.err = none) ∧
    (∀ r, returnValue s = some r → s.shutdownCalls ≠ [] →
      ∃ err, Event.shutdownReturns err ∈ evs) ∧
    (∀ sig, (run LSState.init [Event.notify sig, Event.recvSignal]).map
      (fun s1 => (s1.shutdownCalls, s1.signalTask)) =
        some ([context.Background], SignalTask.inShutdown)) := by
  refine ⟨?_, ?_, ?_⟩
  · intro ctx hctx
    have hinv := (run_shutdown_inv evs LSState.init s h init_shutdown_inv).2.2
    rcases hinv with h0 | h1
    · rw [h0] at hctx
      simp at hctx
    · rw [h1] at hctx
      simp only [List.mem_singleton] at hctx
      subst hctx
      exact ⟨rfl, rfl, rfl⟩
  · intro r hr hc
    obtain ⟨hd, _, _⟩ := returnValue_some s r hr
    exact run_shutdown_returned evs LSState.init s h (fun _ => rfl) (by simp [LSState.init]) hd hc
  · intro sig
    cases sig <;> decide

/-- Witness of C17, amended: SIGINT, the shutdown, the listener closing, the
return of `srv.Shutdown`. -/
theorem ListenAndServe_shutdown_context_witness :
    ∃ s, run LSState.init [Event.notify Signal.Interrupt, Event.recvSignal,
        Event.serveReturns (some http.ErrServerClosed), Event.shutdownReturns none] = some s ∧
      returnValue s = some none ∧
      ∀ ctx ∈ s.shutdownCalls,
        ctx = context.Background ∧ ctx.deadline = none ∧ ctx.err = none :=
  ⟨{ signals := none, signalTask := SignalTask.done, listenTask := ListenTask.done,
     serverError := some http.ErrServerClosed, shutdownCalls := [context.Background],
     log := [{ level := "info", msg := "graceful shutdown initiated..." },
       { level := "info", msg := "graceful shutdown complete" }] },
    by decide, by decide,
    (ListenAndServe_shutdown_context
      [Event.notify Signal.Interrupt, Event.recvSignal,
        Event.serveReturns (some http.ErrServerClosed), Event.shutdownReturns none] _
      (by decide)).1⟩

/-- C18: in every run of `ListenAndServe` the signal-waiting task receives from
the `signals` channel at most once and `srv.Shutdown` is called at most once.
It is called only when a real signal was forwarded and received; a run in
which only the nil signal of a failed listener reaches the channel, or in
which nothing is received, has no call. Further signals that arrive after the
value was received cause no further call. -/
theorem ListenAndServe_shutdown_once (evs : List Event) (s : LSState)
    (h : run LSState.init evs = some s) :
    evs.count Event.recvSignal ≤ 1 ∧
      s.shutdownCalls.length ≤ 1 ∧
      (s.shutdownCalls ≠ [] → (∃ sig, Event.notify sig ∈ evs) ∧ Event.recvSignal ∈ evs) ∧
      (s.signalTask = SignalTask.waiting → s.shutdownCalls = []) ∧
      ∀ more s2, run s more = some s2 → s.signalTask ≠ SignalTask.waiting →
        s2.shutdownCalls = s.shutdownCalls ∧ Event.recvSignal ∉ more := by
  have hinv := run_shutdown_inv evs LSState.init s h init_shutdown_inv
  refine ⟨run_recv_count evs _ s h, ?_, ?_, hinv.1, ?_⟩
  · rcases hinv.2.2 with h0 | h1
    · simp [h0]
    · simp [h1]
  · intro hc
    constructor
    · by_contra hno
      have hno2 : ∀ sig, Event.notify sig ∉ evs := fun sig hin => hno ⟨sig, hin⟩
      exact hc (run_no_notify evs LSState.init s h hno2 (Or.inl rfl))
    · by_contra hno
      have hw : s.signalTask = SignalTask.waiting := run_waiting evs LSState.init s h rfl hno
      exact hc (hinv.1 hw)
  · intro more s2 hrun hnw
    obtain ⟨a, b⟩ := run_not_waiting more s s2 hrun hnw
    exact ⟨b, a⟩

/-- Witness of C18: a second and a third signal arrive while the shutdown is in
progress; `srv.Shutdown` has been called once when `ListenAndServe` returns. -/
theorem ListenAndServe_shutdown_once_witness :
    ∃ s, run LSState.init [Event.notify Signal.Interrupt, Event.recvSignal,
        Event.notify Signal.SIGTERM, Event.notify Signal.Interrupt,
        Event.serveReturns (some http.ErrServerClosed), Event.shutdownReturns none] = some s ∧
      returnValue s = some none ∧ s.shutdownCalls = [context.Background] ∧
      s.shutdownCalls.length ≤ 1 :=
  ⟨{ signals := some (some Signal.SIGTERM), signalTask := SignalTask.done,
     listenTask := ListenTask.done, serverError := some http.ErrServerClosed,
     shutdownCalls := [context.Background],
     log := [{ level := "info", msg := "graceful shutdown initiated..." },
       { level := "info", msg := "graceful shutdown complete" }] },
    by decide, by decide, by decide,
    (ListenAndServe_shutdown_once
      [Event.notify Signal.Interrupt, Event.recvSignal,
        Event.notify Signal.SIGTERM, Event.notify Signal.Interrupt,
        Event.serveReturns (some http.ErrServerClosed), Event.shutdownReturns none] _
      (by decide)).2.1⟩

end server

namespace server

theorem serve_append (ops1 ops2 : List GateOp) (cell : AtomicValue) :
    serve cell (ops1 ++ ops2) =
      serve cell ops1 ++
        serve (ops1.foldl (fun c op =>
          match op with
          | GateOp.invoke => c
          | GateOp.update value => updateFn c value) cell) ops2 := by
  induction ops1 generalizing cell with
  | nil => simp [serve]
  | cons op ops ih =>
      cases op with
      | invoke => simp [serve, ih]
      | update value => simp [serve, ih]

theorem serve_reads (ops : List GateOp) (cell : AtomicValue)
    (hno : ∀ u, GateOp.update u ∉ ops) :
    serve cell ops = List.replicate ops.length (handler cell NewRecorder) := by
  induction ops with
  | nil => simp [serve]
  | cons op ops ih =>
      cases op with
      | invoke =>
          have hno2 : ∀ u, GateOp.update u ∉ ops := fun u hin =>
            hno u (List.mem_cons_of_mem _ hin)
          simp [serve, ih hno2, List.replicate_succ]
      | update value => exact absurd (List.mem_cons_self _ _) (hno value)

theorem serve_mem (ops : List GateOp) (v : Bool) (r : Outcome ResponseWriter)
    (hr : r ∈ serve (AtomicValue.mk (some v)) ops) :
    ∃ x, (x = v ∨ GateOp.update x ∈ ops) ∧ r = handler (AtomicValue.mk (some x)) NewRecorder := by
  induction ops generalizing v with
  | nil => simp [serve] at hr
  | cons op ops ih =>
      cases op with
      | invoke =>
          simp only [serve, List.mem_cons] at hr
          rcases hr with h0 | h1
          · exact ⟨v, Or.inl rfl, h0⟩
          · obtain ⟨x, hx, hrx⟩ := ih v h1
            refine ⟨x, ?_, hrx⟩
            rcases hx with hx | hx
            · exact Or.inl hx
            · exact Or.inr (List.mem_cons_of_mem _ hx)
      | update value =>
          simp only [serve, updateFn, AtomicValue.Store] at hr
          obtain ⟨x, hx, hrx⟩ := ih value hr
          refine ⟨x, Or.inr ?_, hrx⟩
          rcases hx with hx | hx
          · subst hx
            exact List.mem_cons_self _ _
          · exact List.mem_cons_of_mem _ hx

/-- C19: take any interleaving of handler invocations and `updateFn` calls on a
gate made by `CreateAtomicHandler(initialValue)`, each invocation reading the
cell with one `Load` and each call writing it with one `Store`. Every
invocation answers for one whole boolean that was stored, the initial value or
the value of some `updateFn` call of the interleaving, with 200 `OK` for true
and 503 for false. Once the last `updateFn` call has stored its value, every
later invocation answers for that value. -/
theorem CreateAtomicHandler_interleaving (initialValue : Bool) (ops : List GateOp) :
    (∀ r ∈ serve (CreateAtomicHandler initialValue) ops,
      ∃ x, (x = initialValue ∨ GateOp.update x ∈ ops) ∧
        r = handler (CreateAtomicHandler x) NewRecorder ∧
        (x = true → r = Outcome.returned { header := [], status := some 200, body := "OK" }) ∧
        (x = false → ∃ w, r = Outcome.returned w ∧ w.Code = 503 ∧
          w.body = "Service Unavailable\n")) ∧
    (∀ before later value, ops = before ++ GateOp.update value :: later →
      (∀ u, GateOp.update u ∉ later) →
      serve (CreateAtomicHandler initialValue) ops =
        serve (CreateAtomicHandler initialValue) before ++
          List.replicate later.length (handler (CreateAtomicHandler value) NewRecorder)) := by
  constructor
  · intro r hr
    obtain ⟨x, hx, hrx⟩ := serve_mem ops initialValue r hr
    refine ⟨x, hx, hrx, ?_, ?_⟩
    · intro hxt
      subst hxt
      rw [hrx]
      decide
    · intro hxf
      subst hxf
      rw [hrx]
      exact ⟨_, rfl, by decide, by decide⟩
  · intro before later value hops hno
    subst hops
    rw [serve_append]
    congr 1
    simp only [serve]
    rw [serve_reads later _ hno]
    rfl

end server

namespace server

theorem ServeHTTP_ready (readyURLPath liveURLPath method : String) (p : Probes)
    (w : ResponseWriter) :
    (CreateAndHandleReadinessLiveness NewRouter readyURLPath liveURLPath).1.ServeHTTP p method
        readyURLPath w = handler p.ready w := by
  simp [CreateAndHandleReadinessLiveness, NewRouter, Router.HandleFunc, Router.ServeHTTP,
    Route.acceptsMethod, List.find?]

theorem ServeHTTP_live (readyURLPath liveURLPath method : String) (p : Probes)
    (w : ResponseWriter) (hne : readyURLPath ≠ liveURLPath) :
    (CreateAndHandleReadinessLiveness NewRouter readyURLPath liveURLPath).1.ServeHTTP p method
        liveURLPath w = handler p.liveness w := by
  have hb : (readyURLPath == liveURLPath) = false := by simpa using hne
  simp [CreateAndHandleReadinessLiveness, NewRouter, Router.HandleFunc, Router.ServeHTTP,
    Route.acceptsMethod, List.find?, hb]

/-- C15: `CreateAndHandleReadinessLiveness` on a new router, with two different
paths, makes two cells that both hold false, so both paths answer 503
`Service Unavailable` before any update. The gates are independent: from every
state and for every value `v`, `readyFn(v)` leaves the liveness cell and the
answer on the live path as they were and makes the ready path answer for `v`;
`livenessFn(v)` leaves the ready cell and the answer on the ready path as they
were and makes the live path answer for `v`. -/
theorem CreateAndHandleReadinessLiveness_independent (readyURLPath liveURLPath : String)
    (hne : readyURLPath ≠ liveURLPath) :
    (CreateAndHandleReadinessLiveness NewRouter readyURLPath liveURLPath).2 =
        { ready := CreateAtomicHandler false, liveness := CreateAtomicHandler false } ∧
    (∀ path, path = readyURLPath ∨ path = liveURLPath →
      ∃ w, (CreateAndHandleReadinessLiveness NewRouter readyURLPath liveURLPath).1.ServeHTTP
          (CreateAndHandleReadinessLiveness NewRouter readyURLPath liveURLPath).2
          "GET" path NewRecorder = Outcome.returned w ∧
        w.Code = 503 ∧ w.body = "Service Unavailable\n") ∧
    (∀ (p : Probes) (v : Bool) (method : String) (w : ResponseWriter),
      (readyFn p v).liveness = p.liveness ∧
      (CreateAndHandleReadinessLiveness NewRouter readyURLPath liveURLPath).1.ServeHTTP
          (readyFn p v) method liveURLPath w =
        (CreateAndHandleReadinessLiveness NewRouter readyURLPath liveURLPath).1.ServeHTTP
          p method liveURLPath w ∧
      (CreateAndHandleReadinessLiveness NewRouter readyURLPath liveURLPath).1.ServeHTTP
          (readyFn p v) method readyURLPath w = handler (CreateAtomicHandler v) w) ∧
    (∀ (p : Probes) (v : Bool) (method : String) (w : ResponseWriter),
      (livenessFn p v).ready = p.ready ∧
      (CreateAndHandleReadinessLiveness NewRouter readyURLPath liveURLPath).1.ServeHTTP
          (livenessFn p v) method readyURLPath w =
        (CreateAndHandleReadinessLiveness NewRouter readyURLPath liveURLPath).1.ServeHTTP
          p method readyURLPath w ∧
      (CreateAndHandleReadinessLiveness NewRouter readyURLPath liveURLPath).1.ServeHTTP
          (livenessFn p v) method liveURLPath w = handler (CreateAtomicHandler v) w) := by
  refine ⟨rfl, ?_, ?_, ?_⟩
  · intro path hpath
    rcases hpath with rfl | rfl
    · rw [ServeHTTP_ready]
      exact ⟨_, rfl, by decide, by decide⟩
    · rw [ServeHTTP_live _ _ _ _ _ hne]
      exact ⟨_, rfl, by decide, by decide⟩
  · intro p v method w
    refine ⟨rfl, ?_, ?_⟩
    · rw [ServeHTTP_live _ _ _ _ _ hne, ServeHTTP_live _ _ _ _ _ hne]
      rfl
    · rw [ServeHTTP_ready]
      rfl
  · intro p v method w
    refine ⟨rfl, ?_, ?_⟩
    · rw [ServeHTTP_ready, ServeHTTP_ready]
      rfl
    · rw [ServeHTTP_live _ _ _ _ _ hne]
      rfl

/-- Witness of C15: the paths of `Test_CreateAndHandleReadinessLiveness`. -/
theorem CreateAndHandleReadinessLiveness_independent_witness :
    "/ready" ≠ "/live" ∧
      (CreateAndHandleReadinessLiveness NewRouter "/ready" "/live").2 =
        { ready := CreateAtomicHandler false, liveness := CreateAtomicHandler false } :=
  ⟨by decide, (CreateAndHandleReadinessLiveness_independent "/ready" "/live" (by decide)).1⟩

/-- C16, counterexample: a POST to the ready path is answered by the gate
handler, with 503 while the gate is false and with 200 `OK` after
`readyFn(true)`; it is not refused with 405. -/
theorem health_post_counterexample :
    (CreateAndHandleReadinessLiveness NewRouter "/ready" "/live").1.ServeHTTP
        (CreateAndHandleReadinessLiveness NewRouter "/ready" "/live").2
        "POST" "/ready" NewRecorder =
      handler (CreateAndHandleReadinessLiveness NewRouter "/ready" "/live").2.ready NewRecorder ∧
    (CreateAndHandleReadinessLiveness NewRouter "/ready" "/live").1.ServeHTTP
        (readyFn (CreateAndHandleReadinessLiveness NewRouter "/ready" "/live").2 true)
        "POST" "/ready" NewRecorder =
      Outcome.returned { header := [], status := some 200, body := "OK" } := by
  decide

/-- C16, amended: the two health paths registered by
`CreateAndHandleReadinessLiveness` have no method matcher: a request with any
method, GET or another, is answered by the gate handler of its path, with
status 200 and body `OK` when the gate is true and with status 503 and the text
`Service Unavailable` when it is false. -/
theorem health_paths_any_method (readyURLPath liveURLPath : String)
    (hne : readyURLPath ≠ liveURLPath) (p : Probes) (method : String) :
    (∀ route ∈ (CreateAndHandleReadinessLiveness NewRouter readyURLPath liveURLPath).1,
      route.methods = []) ∧
    (CreateAndHandleReadinessLiveness NewRouter readyURLPath liveURLPath).1.ServeHTTP p method
        readyURLPath NewRecorder = handler p.ready NewRecorder ∧
    (CreateAndHandleReadinessLiveness NewRouter readyURLPath liveURLPath).1.ServeHTTP p method
        liveURLPath NewRecorder = handler p.liveness NewRecorder ∧
    (∀ cell : AtomicValue,
      (cell.Load = some true →
        handler cell NewRecorder =
          Outcome.returned { header := [], status := some 200, body := "OK" }) ∧
      (cell.Load = some false →
        ∃ w, handler cell NewRecorder = Outcome.returned w ∧ w.Code = 503 ∧
          w.body = "Service Unavailable\n")) := by
  refine ⟨?_, ServeHTTP_ready _ _ _ _ _, ServeHTTP_live _ _ _ _ _ hne, ?_⟩
  · intro route hroute
    simp [CreateAndHandleReadinessLiveness, NewRouter, Router.HandleFunc] at hroute
    rcases hroute with rfl | rfl <;> rfl
  · intro cell
    obtain ⟨v⟩ := cell
    constructor
    · intro hv
      simp only [AtomicValue.Load] at hv
      subst hv
      decide
    · intro hv
      simp only [AtomicValue.Load] at hv
      subst hv
      exact ⟨_, rfl, by decide, by decide⟩

/-- Witness of C16, amended: a DELETE on the live path after `livenessFn(true)`. -/
theorem health_paths_any_method_witness :
    "/ready" ≠ "/live" ∧
      (CreateAndHandleReadinessLiveness NewRouter "/ready" "/live").1.ServeHTTP
          (livenessFn (CreateAndHandleReadinessLiveness NewRouter "/ready" "/live").2 true)
          "DELETE" "/live" NewRecorder =
        handler (livenessFn (CreateAndHandleReadinessLiveness NewRouter "/ready" "/live").2
          true).liveness NewRecorder :=
  ⟨by decide, (health_paths_any_method "/ready" "/live" (by decide) _ "DELETE").2.2.1⟩

end server

namespace apiclient

theorem attempts_metrics (m : Int) (hc : HTTPClient) (req : Request) (url : String)
    (AL : Nat) : ∀ (fuel i : Nat) (w : World),
    ((retryingClient m hc).attempts req url AL fuel i w).2.httpClientNewConnCounter =
        w.httpClientNewConnCounter ∧
      ((retryingClient m hc).attempts req url AL fuel i w).2.httpClientReusedConnCounter =
        w.httpClientReusedConnCounter ∧
      ((retryingClient m hc).attempts req url AL fuel i w).2.httpClientConnPrepHistogram =
        w.httpClientConnPrepHistogram := by
  intro fuel
  induction fuel with
  | zero =>
      intro i w
      simp [PesterClient.attempts]
  | succ fuel ih =>
      intro i w
      rw [PesterClient.attempts]
      by_cases h2 : i ≤ AL
      · simp only [h2, if_true, retryingClient_log]
        obtain ⟨_, _, f3, f4, f5⟩ := createLogHook_frame m
          { Method := "Do", URL := url, Verb := req.Method, Request := 0,
            Retry := (i : Int) + 1, Attempt := (i : Int),
            Err := ((retryingClient m hc).hc.Do w.requestCount req).err }
          { w with requestCount := w.requestCount + 1 }
        split
        · simp
        · simp
        · simp
        · split
          · exact ⟨f3, f4, f5⟩
          · split
            · exact ⟨f3, f4, f5⟩
            · obtain ⟨g3, g4, g5⟩ := ih (i + 1)
                { (createLogHook m
                    { Method := "Do", URL := url, Verb := req.Method, Request := 0,
                      Retry := (i : Int) + 1, Attempt := (i : Int),
                      Err := ((retryingClient m hc).hc.Do w.requestCount req).err }
                    { w with requestCount := w.requestCount + 1 }) with
                  backoffs := (createLogHook m
                    { Method := "Do", URL := url, Verb := req.Method, Request := 0,
                      Retry := (i : Int) + 1, Attempt := (i : Int),
                      Err := ((retryingClient m hc).hc.Do w.requestCount req).err }
                    { w with requestCount := w.requestCount + 1 }).backoffs ++ [i] }
              exact ⟨g3.trans f3, g4.trans f4, g5.trans f5⟩
      · simp [h2]

theorem retryingClient_Do_metrics (m : Int) (hc : HTTPClient) (req : Request) (w : World) :
    ((retryingClient m hc).Do req w).2.httpClientNewConnCounter = w.httpClientNewConnCounter ∧
      ((retryingClient m hc).Do req w).2.httpClientReusedConnCounter =
        w.httpClientReusedConnCounter ∧
      ((retryingClient m hc).Do req w).2.httpClientConnPrepHistogram =
        w.httpClientConnPrepHistogram := by
  unfold PesterClient.Do
  split
  · simp
  · exact attempts_metrics m hc req _ _ _ _ w

/-- C14: every call of `InstrumentHTTPRequest` adds exactly 1 to the
reused-connection counter, appends exactly one observation of value 0 to the
connection-preparation histogram and leaves the new-connection counter and
everything else unchanged. `InstrumentedHttpClient.Do` does this before it
delegates: the inner client is called in the world in which the metrics are
already recorded, and the world after `Do` is the world the inner call leaves,
whatever its outcome. With the retrying client of `NewExtendedHTTPClient`
inside, which does not touch the metrics, the counters after `Do` are the
counters before it plus this one record. -/
theorem InstrumentHTTPRequest_metrics (req : Request) (w : World) :
    (InstrumentHTTPRequest req w).2 =
        { w with
          httpClientReusedConnCounter := w.httpClientReusedConnCounter + 1,
          httpClientConnPrepHistogram := w.httpClientConnPrepHistogram ++ [0] } ∧
    (InstrumentHTTPRequest req w).2.httpClientNewConnCounter = w.httpClientNewConnCounter ∧
    (∀ ihc : InstrumentedHttpClient,
      (ihc.Do req w).2 =
        (ihc.client (InstrumentHTTPRequest req w).1.1
          { w with
            httpClientReusedConnCounter := w.httpClientReusedConnCounter + 1,
            httpClientConnPrepHistogram := w.httpClientConnPrepHistogram ++ [0] }).2) ∧
    (∀ (maxRetries : Int) (hc : HTTPClient),
      ((NewExtendedHTTPClient maxRetries hc).Do req w).2.httpClientReusedConnCounter =
          w.httpClientReusedConnCounter + 1 ∧
        ((NewExtendedHTTPClient maxRetries hc).Do req w).2.httpClientConnPrepHistogram =
          w.httpClientConnPrepHistogram ++ [0] ∧
        ((NewExtendedHTTPClient maxRetries hc).Do req w).2.httpClientNewConnCounter =
          w.httpClientNewConnCounter) := by
  refine ⟨rfl, rfl, ?_, ?_⟩
  · intro ihc
    rw [InstrumentedHttpClient_Do_world]
    rfl
  · intro maxRetries hc
    have hcl : (NewExtendedHTTPClient maxRetries hc).client = (retryingClient maxRetries hc).Do :=
      rfl
    rw [InstrumentedHttpClient_Do_world, hcl]
    obtain ⟨a, b, c⟩ := retryingClient_Do_metrics maxRetries hc
      (InstrumentHTTPRequest req w).1.1 (InstrumentHTTPRequest req w).2
    exact ⟨b, c, a⟩

end apiclient

namespace apiclient

theorem Client_prepare_fields (c : Client) (ctx : Context) (request : Request) :
    (c.prepare ctx request).ctx = ctx ∧ (c.prepare ctx request).Close = true ∧
      (c.prepare ctx request).URL = request.URL ∧
      (c.prepare ctx request).Method = request.Method ∧
      (c.prepare ctx request).Body = request.Body := by
  unfold Client.prepare
  split
  · split <;> simp [Request.WithContext, Request.HeaderSet]
  · simp [Request.WithContext]

/-- C11: when the underlying `HTTPClient.Do` returns an error for the request
that `Client.Do` passes to it, `Client.Do` returns a `Response` that is not nil,
with `StatusCode` 500 and nothing else set, together with exactly `ctx.Err()`
when `ctx` is done and with the transport error itself when `ctx` is not
done. -/
theorem Client_Do_transport_error (c : Client) (ctx : Context) (request : Request)
    (w w1 : World) (resp : Option Response) (err : GoError)
    (h : c.HTTPClient (c.prepare ctx request) w =
      (Outcome.returned { resp := resp, err := some err }, w1)) :
    (∀ ctxErr, ctx.err = some ctxErr →
      (c.Do ctx (some request) w).1 =
        Outcome.returned
          (some { Body := "", StatusCode := 500, OriginalRequest := none, FaultString := "" },
            some ctxErr)) ∧
    (ctx.err = none →
      (c.Do ctx (some request) w).1 =
        Outcome.returned
          (some { Body := "", StatusCode := 500, OriginalRequest := none, FaultString := "" },
            some err)) ∧
    ∃ r e, (c.Do ctx (some request) w).1 = Outcome.returned (some r, some e) ∧
      r.StatusCode = 500 := by
  refine ⟨?_, ?_, ?_⟩
  · intro ctxErr hctx
    simp [Client.Do, h, hctx]
  · intro hctx
    simp [Client.Do, h, hctx]
  · cases hctx : ctx.err with
    | none =>
        exact ⟨{ Body := "", StatusCode := 500, OriginalRequest := none, FaultString := "" },
          err, by simp [Client.Do, h, hctx], rfl⟩
    | some ctxErr =>
        exact ⟨{ Body := "", StatusCode := 500, OriginalRequest := none, FaultString := "" },
          ctxErr, by simp [Client.Do, h, hctx], rfl⟩

/-- Witness of C11: a refused connection under a cancelled context. -/
theorem Client_Do_transport_error_witness :
    (testClient failingClient "/v2").HTTPClient
        ((testClient failingClient "/v2").prepare canceledRequest.ctx testRequest) World.init =
      (Outcome.returned
        { resp := none, err := some (GoError.errorf "dial tcp: connection refused") },
        World.init) ∧
    ((testClient failingClient "/v2").Do canceledRequest.ctx (some testRequest) World.init).1 =
      Outcome.returned
        (some { Body := "", StatusCode := 500, OriginalRequest := none, FaultString := "" },
          some context.Canceled) :=
  ⟨rfl,
    (Client_Do_transport_error (testClient failingClient "/v2") canceledRequest.ctx testRequest
      World.init World.init none (GoError.errorf "dial tcp: connection refused") rfl).1
      context.Canceled rfl⟩

/-- C12: `Client.Do` with a nil request returns a nil `Response` and the error
`request was NIL, can not execute do request`; it does not panic, it only
writes one error record to the log, and its result does not depend on the
underlying `HTTPClient`, which is not called. -/
theorem Client_Do_nil_request (c : Client) (ctx : Context) (w : World) :
    c.Do ctx none w =
        (Outcome.returned
          (none, some (GoError.errorf "request was NIL, can not execute do request")),
          { w with logOutput := w.logOutput ++
            [{ level := "error",
               msg := "client.DO request was NIL, can not execute do request" }] }) ∧
      (c.Do ctx none w).2.requestCount = w.requestCount ∧
      ∀ rc : RetryClient, ({ c with HTTPClient := rc }).Do ctx none w = c.Do ctx none w :=
  ⟨rfl, rfl, fun _ => rfl⟩

/-- C13: when the underlying `HTTPClient.Do` returns a nil error and a response
with status code `s` whose body reads to its end as `b`, for the request that
`Client.Do` passes to it, then `Client.Do` returns a nil error and a `Response`
with `StatusCode` `s`, `Body` `b` and, as `OriginalRequest`, the request that
was sent. The request may have a nil `URL`: the mock that answers 500 with the
body `OK` yields a `Response` with `StatusCode` 500. -/
theorem Client_Do_success (c : Client) (ctx : Context) (request : Request)
    (w w1 : World) (s : Int) (b : String)
    (h : c.HTTPClient (c.prepare ctx request) w =
      (Outcome.returned
        { resp := some { StatusCode := s, Body := b, BodyErr := none }, err := none }, w1)) :
    c.Do ctx (some request) w =
        (Outcome.returned
          (some { Body := b, StatusCode := s,
                  OriginalRequest := some (c.prepare ctx request), FaultString := "" },
            none), w1) ∧
      (c.prepare ctx request).URL = request.URL ∧
      (c.prepare ctx request).Method = request.Method ∧
      (c.prepare ctx request).ctx = ctx := by
  obtain ⟨h1, _, h3, h4, _⟩ := Client_prepare_fields c ctx request
  exact ⟨by simp [Client.Do, h], h3, h4, h1⟩

/-- Witness of C13: the mock and the request with a nil `URL` of
`TestApiClient_Do_httpInternalServerError`. -/
theorem Client_Do_success_witness :
    (testClient mockRetryClient "/").Do context.Background (some nilURLRequest) World.init =
      (Outcome.returned
        (some { Body := "OK", StatusCode := 500,
                OriginalRequest := some { nilURLRequest with Close := true },
                FaultString := "" },
          none), World.init) :=
  (Client_Do_success (testClient mockRetryClient "/") context.Background nilURLRequest
    World.init World.init 500 "OK" rfl).1

end apiclient

namespace apiclient

theorem bytesLE_total (a b : List Char) : bytesLE a b = true ∨ bytesLE b a = true := by
  induction a generalizing b with
  | nil => simp [bytesLE]
  | cons x xs ih =>
      cases b with
      | nil => simp [bytesLE]
      | cons y ys =>
          simp only [bytesLE]
          by_cases h1 : x.toNat < y.toNat
          · simp [h1]
          · by_cases h2 : y.toNat < x.toNat
            · simp [h1, h2]
            · simpa [h1, h2] using ih ys

theorem bytesLE_trans (a b c : List Char) (hab : bytesLE a b = true)
    (hbc : bytesLE b c = true) : bytesLE a c = true := by
  induction a generalizing b c with
  | nil => simp [bytesLE]
  | cons x xs ih =>
      cases b with
      | nil => simp [bytesLE] at hab
      | cons y ys =>
          cases c with
          | nil => simp [bytesLE] at hbc
          | cons z zs =>
              simp only [bytesLE] at hab hbc ⊢
              by_cases h1 : x.toNat < y.toNat
              · by_cases h3 : y.toNat < z.toNat
                · have : x.toNat < z.toNat := by omega
                  simp [this]
                · by_cases h4 : z.toNat < y.toNat
                  · simp [h3, h4] at hbc
                  · have : x.toNat < z.toNat := by omega
                    simp [this]
              · by_cases h2 : y.toNat < x.toNat
                · simp [h1, h2] at hab
                · simp only [h1, h2, if_false] at hab
                  by_cases h3 : y.toNat < z.toNat
                  · have : x.toNat < z.toNat := by omega
                    simp [this]
                  · by_cases h4 : z.toNat < y.toNat
                    · simp [h3, h4] at hbc
                    · simp only [h3, h4, if_false] at hbc
                      have h5 : ¬ x.toNat < z.toNat := by omega
                      have h6 : ¬ z.toNat < x.toNat := by omega
                      simp only [h5, h6, if_false]
                      exact ih ys zs hab hbc

theorem mem_insertByKey (e y : String × List String) (l : Values) :
    y ∈ insertByKey e l ↔ y = e ∨ y ∈ l := by
  induction l with
  | nil => simp [insertByKey]
  | cons x rest ih =>
      simp only [insertByKey]
      split
      · simp only [List.mem_cons, ih]
        tauto
      · simp only [List.mem_cons]

theorem insertByKey_pairwise (e : String × List String) (l : Values)
    (h : l.Pairwise (fun a b => bytesLE a.1.data b.1.data = true)) :
    (insertByKey e l).Pairwise (fun a b => bytesLE a.1.data b.1.data = true) := by
  induction l with
  | nil => simp [insertByKey]
  | cons x rest ih =>
      obtain ⟨hx, hrest⟩ := List.pairwise_cons.mp h
      simp only [insertByKey]
      split
      · rename_i hle
        refine List.pairwise_cons.mpr ⟨?_, ih hrest⟩
        intro y hy
        rcases (mem_insertByKey e y rest).mp hy with rfl | hin
        · exact hle
        · exact hx y hin
      · rename_i hle
        have hex : bytesLE e.1.data x.1.data = true := by
          rcases bytesLE_total x.1.data e.1.data with h1 | h1
          · exact absurd h1 hle
          · exact h1
        refine List.pairwise_cons.mpr ⟨?_, h⟩
        intro y hy
        rcases List.mem_cons.mp hy with rfl | hin
        · exact hex
        · exact bytesLE_trans _ _ _ hex (hx y hin)

theorem sorted_pairwise (v : Values) :
    (Values.sorted v).Pairwise (fun a b => bytesLE a.1.data b.1.data = true) := by
  induction v with
  | nil => simp [Values.sorted]
  | cons e rest ih => exact insertByKey_pairwise e _ ih

theorem insertByKey_perm (e : String × List String) (l : Values) :
    (insertByKey e l).Perm (e :: l) := by
  induction l with
  | nil => simp [insertByKey]
  | cons x rest ih =>
      simp only [insertByKey]
      split
      · exact (List.Perm.cons x ih).trans (List.Perm.swap e x rest)
      · exact List.Perm.refl _

theorem sorted_perm (v : Values) : (Values.sorted v).Perm v := by
  induction v with
  | nil => simp [Values.sorted]
  | cons e rest ih => exact (insertByKey_perm e _).trans (List.Perm.cons e ih)

theorem get_assign (q : Values) (k key : String) (vs : List String) :
    (Values.assign q k vs).get key = if k = key then some vs else q.get key := by
  induction q with
  | nil =>
      by_cases h : k = key <;> simp [Values.assign, Values.get, h]
  | cons x rest ih =>
      obtain ⟨k1, v1⟩ := x
      by_cases h1 : k1 = k
      · subst h1
        by_cases h : k1 = key <;> simp [Values.assign, Values.get, h]
      · have hb : (k1 == k) = false := by simpa using h1
        simp only [Values.assign, hb, Values.get, ih]
        by_cases h2 : k1 = key
        · have hne : ¬ k = key := fun hk => h1 (h2.trans hk.symm)
          simp [h2, hne]
        · have hb2 : (k1 == key) = false := by simpa using h2
          simp [hb2]

theorem get_foldl_absent (params q : Values) (key : String)
    (h : key ∉ params.map Prod.fst) :
    (params.foldl (fun q kv => Values.assign q kv.1 kv.2) q).get key = q.get key := by
  induction params generalizing q with
  | nil => rfl
  | cons kv rest ih =>
      simp only [List.map_cons, List.mem_cons, not_or] at h
      simp only [List.foldl_cons]
      rw [ih _ h.2, get_assign]
      have hne : ¬ kv.1 = key := fun hk => h.1 hk.symm
      simp [hne]

theorem get_foldl_present (params q : Values) (key : String) (vs : List String)
    (hnodup : (params.map Prod.fst).Nodup) (hmem : (key, vs) ∈ params) :
    (params.foldl (fun q kv => Values.assign q kv.1 kv.2) q).get key = some vs := by
  induction params generalizing q with
  | nil => simp at hmem
  | cons kv rest ih =>
      simp only [List.map_cons, List.nodup_cons] at hnodup
      simp only [List.foldl_cons]
      rcases List.mem_cons.mp hmem with heq | hin
      · subst heq
        rw [get_foldl_absent rest _ _ hnodup.1, get_assign]
        simp
      · exact ih _ hnodup.2 hin

end apiclient

namespace apiclient

theorem NewRequest_ok (parse : String → Option GoError) (method url : String)
    (body : Option String) (hm : method ≠ "") (ht : method.data.all isTokenChar = true)
    (hp : parse url = none) :
    NewRequest parse method url body =
      Except.ok { Method := method, URL := some url, Header := [], Close := false,
                  ctx := context.Background, Body := body } := by
  have hb : (method == "") = false := by simpa using hm
  simp [NewRequest, hb, ht, hp]

theorem HeaderSet_fields (req : Request) (key value : String) :
    (req.HeaderSet key value).Method = req.Method ∧ (req.HeaderSet key value).URL = req.URL :=
  ⟨rfl, rfl⟩

theorem String_tail_shape (B P q f : String) (Q F : Bool) :
    (if F = true then (if Q = true then B ++ P ++ "?" ++ q else B ++ P) ++ "#" ++ f
      else (if Q = true then B ++ P ++ "?" ++ q else B ++ P)) =
      B ++ P ++ (if Q = true then "?" ++ q else "") ++ (if F = true then "#" ++ f else "") := by
  cases Q <;> cases F <;> simp [String.append_assoc]

theorem URL_String_of_not_opaque (u : URL) (h : u.Opaque = "") :
    ∃ pre, u.String = pre ++ u.EscapedPath ++
      (if (u.ForceQuery || u.RawQuery != "") = true then "?" ++ u.RawQuery else "") ++
      (if (u.Fragment != "") = true then "#" ++ u.EscapedFragment else "") := by
  unfold URL.String
  simp only [h]
  have h0 : (("" : String) != "") = false := by decide
  simp only [h0, Bool.false_eq_true, if_false]
  exact ⟨_, String_tail_shape _ _ _ _ _ _⟩

theorem URL_String_of_opaque (u : URL) (h : u.Opaque ≠ "") (p : String) :
    ({ u with Path := p }).String = u.String := by
  have hb : (u.Opaque != "") = true := by simpa using h
  simp only [URL.String, URL.EscapedFragment, hb, if_true]

theorem URL_EscapedPath_of_no_RawPath (u : URL) (h : u.RawPath = "") (hs : u.Path ≠ "*") :
    u.EscapedPath = escape u.Path encoding.encodePath := by
  have h0 : (("" : String) != "") = false := by decide
  have hb : (u.Path == "*") = false := by simpa using hs
  simp [URL.EscapedPath, h, h0, hb]

theorem Client_Do_sends (c : Client) (ctx : Context) (request : Request) (w : World) :
    c.sends (c.prepare ctx request) w (c.Do ctx (some request) w) := by
  refine ⟨?_, ?_, ?_, ?_⟩
  · intro reason w1 h
    simp [Client.Do, h]
  · intro w1 h
    simp [Client.Do, h]
  · intro status body w1 h
    simp [Client.Do, h]
  · intro resp err w1 h
    simp only [Client.Do, h]
    cases ctx.err <;> rfl

theorem Client_sends_request (parse : String → Option GoError) (c : Client) (ctx : Context)
    (method url key value : String) (body : Option String) (w : World)
    (hm : method ≠ "") (ht : method.data.all isTokenChar = true) (hp : parse url = none) :
    ∃ request, NewRequest parse method url body = Except.ok request ∧
      ∃ sent : Request,
        sent = c.prepare ctx ((request.HeaderSet key value).HeaderSet "User-Agent" c.UserAgent) ∧
        sent.Method = method ∧ sent.URL = some url ∧ sent.ctx = ctx ∧ sent.Close = true ∧
        sent.Body = body ∧
        c.sends sent w
          (c.Do ctx (some ((request.HeaderSet key value).HeaderSet "User-Agent" c.UserAgent)) w) := by
  refine ⟨_, NewRequest_ok parse method url body hm ht hp, _, rfl, ?_, ?_, ?_, ?_, ?_,
    Client_Do_sends c ctx _ w⟩
  · rw [(Client_prepare_fields c ctx _).2.2.2.1]
    rfl
  · rw [(Client_prepare_fields c ctx _).2.2.1]
    rfl
  · exact (Client_prepare_fields c ctx _).1
  · exact (Client_prepare_fields c ctx _).2.1
  · rw [(Client_prepare_fields c ctx _).2.2.2.2]
    rfl

/-- C20, counterexample: the base URL `localhost:8080`, which `InitClient`
accepts, has the scheme `localhost` and the opaque part `8080`. `Get` with the
path `roles/bus` sets the path of its copy of the base URL to `roles/bus`, but
the text of a URL with an opaque part leaves the path out: the request that
the underlying client is given has the URL `localhost:8080`, the base URL
itself, without the joined path. -/
theorem opaque_base_URL_counterexample :
    (opaqueClient echoClient).BaseURL.String = "localhost:8080" ∧
      ((opaqueClient echoClient).urlWithQuery "roles/bus" none).Path = "roles/bus" ∧
      ((opaqueClient echoClient).urlWithQuery "roles/bus" none).String = "localhost:8080" ∧
      ((opaqueClient echoClient).Get (fun _ => none) context.Background "roles/bus" none
          World.init).1 =
        Outcome.returned
          (some { Body := "GET localhost:8080", StatusCode := 200,
                  OriginalRequest := some
                    { Method := "GET", URL := some "localhost:8080",
                      Header := [("User-Agent", "test"), ("Accept", "application/json")],
                      Close := true, ctx := context.Background },
                  FaultString := "" }, none) := by
  decide

/-- C20, amended: let the base URL have no opaque part and let `url.Parse`
accept the text of the URL that the method builds. Then `Get`,
`PostWithQueryParams`, `Post`, `Put` and `Delete` each hand to the underlying
`HTTPClient` one request, of their method and with the caller's context, whose
URL is the text of the base URL with its path replaced by
`path.Join(base path, urlPath)`, and return what follows from the answer of the
underlying client to that request. That text has the escaped joined path
(`EscapedPath`) before the query and the fragment; when the base URL has no
`RawPath` the escaped path is the escaping of the joined path. For `Get` and
`PostWithQueryParams` with parameters that are not empty the query is the
`Encode` of the query values of the base URL after each given key was assigned
its given values: a given key has the given values, any other key the values
of the base URL, and `Encode` writes the entries in the order of their keys.
Without parameters, and for `Post`, `Put` and `Delete`, the query of the base
URL is kept as it is. -/
theorem Client_request_URL (parse : String → Option GoError) (c : Client) (ctx : Context)
    (urlPath : String) (queryParams : Option Values) (body : Option String) (w : World)
    (hop : c.BaseURL.Opaque = "")
    (hq : parse (c.urlWithQuery urlPath queryParams).String = none)
    (hp : parse (c.urlPlain urlPath).String = none) :
    (∃ sent : Request, sent.Method = "GET" ∧
      sent.URL = some (c.urlWithQuery urlPath queryParams).String ∧ sent.ctx = ctx ∧
      c.sends sent w (c.Get parse ctx urlPath queryParams w)) ∧
    (∃ sent : Request, sent.Method = "POST" ∧
      sent.URL = some (c.urlWithQuery urlPath queryParams).String ∧ sent.ctx = ctx ∧
      c.sends sent w (c.PostWithQueryParams parse ctx urlPath queryParams body w)) ∧
    (∃ sent : Request, sent.Method = "POST" ∧
      sent.URL = some (c.urlPlain urlPath).String ∧ sent.ctx = ctx ∧
      c.sends sent w (c.Post parse ctx urlPath body w)) ∧
    (∃ sent : Request, sent.Method = "PUT" ∧
      sent.URL = some (c.urlPlain urlPath).String ∧ sent.ctx = ctx ∧
      c.sends sent w (c.Put parse ctx urlPath body w)) ∧
    (∃ sent : Request, sent.Method = "DELETE" ∧
      sent.URL = some (c.urlPlain urlPath).String ∧ sent.ctx = ctx ∧
      c.sends sent w (c.Delete parse ctx urlPath body w)) ∧
    c.urlPlain urlPath = { c.BaseURL with Path := pathJoin c.BaseURL.Path urlPath } ∧
    c.urlWithQuery urlPath queryParams =
      { c.BaseURL with
        Path := pathJoin c.BaseURL.Path urlPath,
        RawQuery := (c.urlWithQuery urlPath queryParams).RawQuery } ∧
    (∃ pre, (c.urlPlain urlPath).String =
      pre ++ (c.urlPlain urlPath).EscapedPath ++
        (if (c.BaseURL.ForceQuery || c.BaseURL.RawQuery != "") = true then
          "?" ++ c.BaseURL.RawQuery else "") ++
        (if (c.BaseURL.Fragment != "") = true then "#" ++ c.BaseURL.EscapedFragment else "")) ∧
    (∃ pre, (c.urlWithQuery urlPath queryParams).String =
      pre ++ (c.urlWithQuery urlPath queryParams).EscapedPath ++
        (if (c.BaseURL.ForceQuery ||
            (c.urlWithQuery urlPath queryParams).RawQuery != "") = true then
          "?" ++ (c.urlWithQuery urlPath queryParams).RawQuery else "") ++
        (if (c.BaseURL.Fragment != "") = true then "#" ++ c.BaseURL.EscapedFragment else "")) ∧
    (c.BaseURL.RawPath = "" → pathJoin c.BaseURL.Path urlPath ≠ "*" →
      (c.urlPlain urlPath).EscapedPath =
          escape (pathJoin c.BaseURL.Path urlPath) encoding.encodePath ∧
        (c.urlWithQuery urlPath queryParams).EscapedPath =
          escape (pathJoin c.BaseURL.Path urlPath) encoding.encodePath) ∧
    (∀ params, queryParams = some params → params ≠ [] →
      (c.urlWithQuery urlPath queryParams).RawQuery =
        (params.foldl (fun q kv => Values.assign q kv.1 kv.2) c.BaseURL.Query).Encode) ∧
    (queryParams = none ∨ queryParams = some [] →
      (c.urlWithQuery urlPath queryParams).RawQuery = c.BaseURL.RawQuery) ∧
    (∀ params : Values, (params.map Prod.fst).Nodup →
      (∀ key vs, (key, vs) ∈ params →
        (params.foldl (fun q kv => Values.assign q kv.1 kv.2) c.BaseURL.Query).get key =
          some vs) ∧
      (∀ key, key ∉ params.map Prod.fst →
        (params.foldl (fun q kv => Values.assign q kv.1 kv.2) c.BaseURL.Query).get key =
          c.BaseURL.Query.get key)) ∧
    (∀ v : Values, (Values.sorted v).Perm v ∧
      (Values.sorted v).Pairwise (fun a b => bytesLE a.1.data b.1.data = true)) := by
  have hwq : c.urlWithQuery urlPath queryParams =
      { c.BaseURL with
        Path := pathJoin c.BaseURL.Path urlPath,
        RawQuery := (c.urlWithQuery urlPath queryParams).RawQuery } := by
    unfold Client.urlWithQuery
    split
    · split <;> rfl
    · rfl
  have hpl : c.urlPlain urlPath = { c.BaseURL with Path := pathJoin c.BaseURL.Path urlPath } :=
    rfl
  refine ⟨?_, ?_, ?_, ?_, ?_, hpl, hwq, ?_, ?_, ?_, ?_, ?_, ?_, ?_⟩
  · obtain ⟨request, hreq, sent, _, hm, hu, hc, _, _, hs⟩ := Client_sends_request parse c ctx
      "GET" _ "Accept" "application/json" none w (by decide) (by decide) hq
    refine ⟨sent, hm, hu, hc, ?_⟩
    simp only [Client.Get]
    rw [hreq]
    exact hs
  · obtain ⟨request, hreq, sent, _, hm, hu, hc, _, _, hs⟩ := Client_sends_request parse c ctx
      "POST" _ "Content-Type" "application/json" body w (by decide) (by decide) hq
    refine ⟨sent, hm, hu, hc, ?_⟩
    simp only [Client.PostWithQueryParams]
    rw [hreq]
    exact hs
  · obtain ⟨request, hreq, sent, _, hm, hu, hc, _, _, hs⟩ := Client_sends_request parse c ctx
      "POST" _ "Content-Type" "application/json" body w (by decide) (by decide) hp
    refine ⟨sent, hm, hu, hc, ?_⟩
    simp only [Client.Post]
    rw [hreq]
    exact hs
  · obtain ⟨request, hreq, sent, _, hm, hu, hc, _, _, hs⟩ := Client_sends_request parse c ctx
      "PUT" _ "Content-Type" "application/json" body w (by decide) (by decide) hp
    refine ⟨sent, hm, hu, hc, ?_⟩
    simp only [Client.Put]
    rw [hreq]
    exact hs
  · obtain ⟨request, hreq, sent, _, hm, hu, hc, _, _, hs⟩ := Client_sends_request parse c ctx
      "DELETE" _ "Content-Type" "application/json" body w (by decide) (by decide) hp
    refine ⟨sent, hm, hu, hc, ?_⟩
    simp only [Client.Delete]
    rw [hreq]
    exact hs
  · have h := URL_String_of_not_opaque (c.urlPlain urlPath) (by rw [hpl]; exact hop)
    rw [hpl] at h ⊢
    exact h
  · have h := URL_String_of_not_opaque (c.urlWithQuery urlPath queryParams)
      (by rw [hwq]; exact hop)
    rw [hwq] at h
    rw [hwq]
    exact h
  · intro hraw hstar
    constructor
    · rw [hpl]
      exact URL_EscapedPath_of_no_RawPath _ hraw hstar
    · rw [hwq]
      exact URL_EscapedPath_of_no_RawPath _ hraw hstar
  · intro params hsome hne
    subst hsome
    have hlen : params.length > 0 := List.length_pos.mpr hne
    simp [Client.urlWithQuery, hlen]
  · intro hnone
    rcases hnone with rfl | rfl <;> simp [Client.urlWithQuery]
  · intro params hnodup
    exact ⟨fun key vs hmem => get_foldl_present params _ key vs hnodup hmem,
      fun key habs => get_foldl_absent params _ key habs⟩
  · intro v
    exact ⟨sorted_perm v, sorted_pairwise v⟩

/-- Witness of C20, amended: the cases of `verifyRequestURL`. With the base
path `/v2`, the path `roles/bus` and the parameters `name: Ava`,
`friend: Jess`, the underlying client is given a `GET` request with the request
URI `/v2/roles/bus?friend=Jess&name=Ava`; with an empty base path and no
parameters the request URI is `/roles/bus`. -/
theorem Client_request_URL_witness :
    (testClient echoClient "/v2").BaseURL.Opaque = "" ∧
    (∃ sent : Request, sent.Method = "GET" ∧
      sent.URL =
        some ((testClient echoClient "/v2").urlWithQuery "roles/bus" (some testParams)).String ∧
      sent.ctx = context.Background ∧
      (testClient echoClient "/v2").sends sent World.init
        ((testClient echoClient "/v2").Get (fun _ => none) context.Background "roles/bus"
          (some testParams) World.init)) ∧
    ((testClient echoClient "/v2").urlWithQuery "roles/bus" (some testParams)).String =
      "http://127.0.0.1:8080" ++ "/v2/roles/bus?friend=Jess&name=Ava" ∧
    ((testClient echoClient "/v2").Get (fun _ => none) context.Background "roles/bus"
        (some testParams) World.init).1 =
      Outcome.returned
        (some { Body := "GET http://127.0.0.1:8080" ++ "/v2/roles/bus?friend=Jess&name=Ava",
                StatusCode := 200,
                OriginalRequest := some
                  { Method := "GET",
                    URL := some ("http://127.0.0.1:8080" ++ "/v2/roles/bus?friend=Jess&name=Ava"),
                    Header := [("User-Agent", "test"), ("Accept", "application/json")],
                    Close := true, ctx := context.Background },
                FaultString := "" }, none) ∧
    ((testClient echoClient "").urlWithQuery "roles/bus" none).String =
      "http://127.0.0.1:8080" ++ "/roles/bus" ∧
    ((testClient echoClient "").urlWithQuery "roles/bus" (some testParams)).String =
      "http://127.0.0.1:8080" ++ "/roles/bus?friend=Jess&name=Ava" ∧
    ((testClient echoClient "/v2").urlPlain "roles/bus").String =
      "http://127.0.0.1:8080" ++ "/v2/roles/bus" :=
  ⟨rfl,
    (Client_request_URL (fun _ => none) (testClient echoClient "/v2") context.Background
      "roles/bus" (some testParams) none World.init rfl rfl rfl).1,
    by decide, by decide, by decide, by decide, by decide⟩

end apiclient

/-! ## Theorems: package `http` -/

namespace builders

theorem int64_of_range (x : Int) (h1 : -9223372036854775808 ≤ x)
    (h2 : x ≤ 9223372036854775807) : int64 x = x := by
  unfold int64
  omega

theorem Build_Timeout (b : clientBuilder) (n : Int) :
    (b.Timeout n).Build.Timeout = int64 (Second * int64 n) := rfl

/-- C21, counterexample: for `n = 9223372037` the product
`time.Second * time.Duration(n)` does not fit an `int64`; the `Timeout` of the
built client is the wrapped, negative value and not `n` seconds. -/
theorem timeout_overflow_counterexample :
    (NewClientBuilder.Timeout 9223372037).Build.Timeout = -9223372036709551616 ∧
      (NewClientBuilder.Timeout 9223372037).Build.Timeout ≠ 9223372037 * 1000000000 := by
  decide

/-- C21, amended: for every number of seconds `n` from -9223372036 to
9223372036, the numbers whose nanoseconds fit a `time.Duration`, the client
that `NewClientBuilder().Timeout(n).Build()` returns has a `Timeout` of exactly
`n` seconds, `n` times 1000000000 nanoseconds; without a call of `Timeout` it is
100 seconds. For every `n` the `Timeout` is the Go product
`time.Second * time.Duration(n)`. After `SetHTTPClient(builder)` the client that
`GetHTTPClient()` points to is the client that the builder builds, with the
same `Timeout`. -/
theorem ClientBuilder_Timeout_seconds (n : Int) (h1 : -9223372036 ≤ n)
    (h2 : n ≤ 9223372036) :
    (NewClientBuilder.Timeout n).Build.Timeout = n * 1000000000 ∧
    NewClientBuilder.Build.Timeout = 100 * 1000000000 ∧
    (∀ m : Int, (NewClientBuilder.Timeout m).Build.Timeout = int64 (Second * int64 m)) ∧
    (∀ (builder : clientBuilder) (old : HttpClient),
      GetHTTPClient (SetHTTPClient builder old) = builder.Build) ∧
    (∀ old : HttpClient,
      (GetHTTPClient (SetHTTPClient (NewClientBuilder.Timeout n) old)).Timeout =
        n * 1000000000) := by
  have hexact : (NewClientBuilder.Timeout n).Build.Timeout = n * 1000000000 := by
    rw [Build_Timeout, int64_of_range n (by omega) (by omega)]
    rw [int64_of_range _ (by unfold Second; omega) (by unfold Second; omega)]
    unfold Second
    omega
  exact ⟨hexact, by decide, fun _ => rfl, fun _ _ => rfl, fun _ => hexact⟩

/-- Witness of C21, amended: `Test_set_and_get_http_client`, with
`Timeout(100)`. -/
theorem ClientBuilder_Timeout_seconds_witness :
    (NewClientBuilder.Timeout 100).Build.Timeout = 100 * 1000000000 ∧
      ∀ old : HttpClient,
        (GetHTTPClient (SetHTTPClient (NewClientBuilder.Timeout 100) old)).Timeout =
          100 * 1000000000 :=
  ⟨(ClientBuilder_Timeout_seconds 100 (by decide) (by decide)).1,
    (ClientBuilder_Timeout_seconds 100 (by decide) (by decide)).2.2.2.2⟩

/-- C22, failing input: the builders `NewClientBuilder().IdleConnTimeout(5)` and
`NewClientBuilder().IdleConnTimeout(60)` differ, and so do the pairs made with
`MaxIdleConnPerHost(1)` and `(64)`, `MaxConnPerHost(1)` and `(64)`,
`DisableCompression(true)` and `(false)`, `MaxRetries(5)` and `(2)`; the two
builders of each pair build equal clients. The transport of the built client
has the zero value in `IdleConnTimeout`, `MaxIdleConnsPerHost` and
`MaxConnsPerHost` and `false` in `DisableCompression`, whatever was configured,
and for every builder and every value each of the five setters leaves the
built client as it was. -/
theorem Build_drops_settings :
    (NewClientBuilder.IdleConnTimeout 5 ≠ NewClientBuilder.IdleConnTimeout 60 ∧
      (NewClientBuilder.IdleConnTimeout 5).Build = (NewClientBuilder.IdleConnTimeout 60).Build ∧
      (NewClientBuilder.IdleConnTimeout 5).Build.Transport.IdleConnTimeout = 0 ∧
      (NewClientBuilder.IdleConnTimeout 60).Build.Transport.IdleConnTimeout = 0) ∧
    (NewClientBuilder.MaxIdleConnPerHost 1 ≠ NewClientBuilder.MaxIdleConnPerHost 64 ∧
      (NewClientBuilder.MaxIdleConnPerHost 1).Build =
        (NewClientBuilder.MaxIdleConnPerHost 64).Build ∧
      (NewClientBuilder.MaxIdleConnPerHost 1).Build.Transport.MaxIdleConnsPerHost = 0 ∧
      (NewClientBuilder.MaxIdleConnPerHost 64).Build.Transport.MaxIdleConnsPerHost = 0) ∧
    (NewClientBuilder.MaxConnPerHost 1 ≠ NewClientBuilder.MaxConnPerHost 64 ∧
      (NewClientBuilder.MaxConnPerHost 1).Build = (NewClientBuilder.MaxConnPerHost 64).Build ∧
      (NewClientBuilder.MaxConnPerHost 1).Build.Transport.MaxConnsPerHost = 0 ∧
      (NewClientBuilder.MaxConnPerHost 64).Build.Transport.MaxConnsPerHost = 0) ∧
    (NewClientBuilder.DisableCompression true ≠ NewClientBuilder.DisableCompression false ∧
      (NewClientBuilder.DisableCompression true).Build =
        (NewClientBuilder.DisableCompression false).Build ∧
      (NewClientBuilder.DisableCompression true).Build.Transport.DisableCompression = false) ∧
    (NewClientBuilder.MaxRetries 5 ≠ NewClientBuilder.MaxRetries 2 ∧
      (NewClientBuilder.MaxRetries 5).Build = (NewClientBuilder.MaxRetries 2).Build) ∧
    (∀ (b : clientBuilder) (n : Int) (flag : Bool),
      (b.IdleConnTimeout n).Build = b.Build ∧ (b.MaxIdleConnPerHost n).Build = b.Build ∧
      (b.MaxConnPerHost n).Build = b.Build ∧ (b.DisableCompression flag).Build = b.Build ∧
      (b.MaxRetries n).Build = b.Build ∧
      b.Build.Transport.IdleConnTimeout = 0 ∧ b.Build.Transport.MaxIdleConnsPerHost = 0 ∧
      b.Build.Transport.MaxConnsPerHost = 0 ∧ b.Build.Transport.DisableCompression = false) :=
  ⟨by decide, by decide, by decide, by decide, by decide,
    fun _ _ _ => ⟨rfl, rfl, rfl, rfl, rfl, rfl, rfl, rfl, rfl⟩⟩

/-- The settings that `Build` does read are passed through, so the built
client does depend on the builder: the `Timeout` is the given number of
seconds, the TLS configuration has the given flag, and the root pool is nil
when verification is skipped and else a pool with the given PEM data. -/
theorem Build_reads_timeout_and_tls (b : clientBuilder) :
    (∀ n : Int, (b.Timeout n).Build.Timeout = int64 (Second * int64 n)) ∧
    (∀ flag : Bool,
      (b.InsecureSkipVerify flag).Build.Transport.TLSClientConfig.InsecureSkipVerify = flag ∧
      ((b.InsecureSkipVerify flag).Build.Transport.TLSClientConfig.RootCAs = none ↔
        flag = true)) ∧
    (∀ pemCerts : String,
      (b.PemCertificates pemCerts).Build.Transport.TLSClientConfig.RootCAs =
        if b.tlsInsecureSkipVerify then none else some { pem := [pemCerts] }) := by
  refine ⟨fun n => rfl, ?_, ?_⟩
  · intro flag
    cases flag <;> simp [clientBuilder.Build, clientBuilder.InsecureSkipVerify, getCertPool]
  · intro pemCerts
    cases hs : b.tlsInsecureSkipVerify <;>
      simp [clientBuilder.Build, clientBuilder.PemCertificates, getCertPool, hs]

end builders
